import Mathlib

/-!
Verification of the batch subscription-cancellation tooling.

Shallow embedding of the row-processing engine of
`scripts/cancel_subscriptions.py` (and, where a claim cites it, of the
older top-level `cancel_subscriptions.py`): the result classifier, the
retry wrappers, reservoir sampling, config merging and the main run loop.
Remote behaviour (what each API call does) and the jitter draws are
passed in as explicit oracle streams; file contents are passed as lists
of lines; instrumentation fields (number of remote invocations, sleeps
performed, rows considered) record the side effects the source performs.
-/

set_option maxHeartbeats 1000000

namespace FightPass

/-! ### String helpers: Python `needle in hay`, `str.strip`, `str.lower` -/
/-- Does `hay` start with `needle`? (model of the leading-segment test used below). -/
def startsList (needle hay : List Char) : Bool :=
  match needle, hay with
  | [], _ => true
  | _ :: _, [] => false
  | a :: as, b :: bs => a == b && startsList as bs

/-- Does `needle` occur contiguously inside `hay`? -/
def subList (needle hay : List Char) : Bool :=
  match hay with
  | [] => needle.isEmpty
  | _ :: bs => startsList needle hay || subList needle bs

/-- Python `needle in hay` on strings. -/
def strContains (hay needle : String) : Bool :=
  subList needle.data hay.data

/-- Python `str.strip()`: drop whitespace from both ends. -/
def pyStrip (s : String) : String :=
  ⟨((s.data.dropWhile Char.isWhitespace).reverse.dropWhile Char.isWhitespace).reverse⟩

/-- Python `str.lower()` (on the basic latin range). -/
def pyLower (s : String) : String :=
  ⟨s.data.map Char.toLower⟩

/-! ### Source constants (`scripts/cancel_subscriptions.py` lines 38-73) -/
def RETRY_STATUS : List Nat := [429, 500, 503]

def ELIGIBLE_STATES : List String :=
  ["SUBSCRIPTION_STATE_ACTIVE",
   "SUBSCRIPTION_STATE_IN_GRACE_PERIOD",
   "SUBSCRIPTION_STATE_ON_HOLD",
   "SUBSCRIPTION_STATE_PAUSED"]

/-- Python `status in RETRY_STATUS` where `status` may be `None`. -/
def inRetryStatus : Option Nat → Bool
  | some s => RETRY_STATUS.contains s
  | none => false

/-! ### Result classifier (`classify_error`, lines 118-127) -/
/-- Function `classify_error` from the source: a message-only classifier. -/
def classify_error (message : String) : String :=
  let lowered := pyLower message
  if strContains lowered "already" && strContains lowered "cancel" then "already_cancelled"
  else if strContains lowered "not found" then "not_found"
  else if strContains lowered "permission" || strContains lowered "forbidden" then "permission"
  else "other"

/-- The error kinds named by the specification. -/
inductive ErrorKind where
  | alreadyInTargetState
  | notFound
  | permissionDenied
  | transientServer
  | localException
  | other
deriving DecidableEq

/-- Modelled from the spec: the spec section 4.3 describes the Result
Classifier as a single pure function from (HTTP status, message text) to
an ErrorKind with a transient branch keyed on the status; no such
function exists in the source (`classify_error` takes only the message),
so this definition follows the spec text for comparison. -/
def specClassify (status : Option Nat) (message : String) : ErrorKind :=
  let lowered := pyLower message
  if strContains lowered "already" && strContains lowered "cancel" then .alreadyInTargetState
  else if strContains lowered "not found" then .notFound
  else if strContains lowered "permission" || strContains lowered "forbidden" then .permissionDenied
  else if inRetryStatus status then .transientServer
  else .other

/-! ### Remote call behaviour and result records -/
/-- Model of the auto-renewing plan object inside a line item. -/
structure AutoPlan where
  autoRenewEnabled : Option Bool
deriving DecidableEq

/-- Model of one entry of the `lineItems` array of the payload. -/
structure LineItem where
  expiryTime : Option String
  autoRenewingPlan : Option AutoPlan
  latestSuccessfulOrderId : Option String
deriving DecidableEq

/-- Model of the subscription payload returned by the remote get verb
(only the fields the script reads). -/
structure Payload where
  subscriptionState : Option String
  latestOrderId : Option String
  lineItems : List LineItem
deriving DecidableEq

def emptyPayload : Payload := ⟨none, none, []⟩

/-- What one remote call does: return normally (with a payload, ignored by
the mutating verbs), raise an `HttpError` carrying an optional status and a
message, or raise some other exception. -/
inductive CallBehavior where
  | succeeds (payload : Payload)
  | httpError (status : Option Nat) (message : String)
  | raiseExc (message : String)
deriving DecidableEq

/-- Dataclass `CancelResult` (source lines 76-84). -/
structure CancelResult where
  status : String
  attempts : Nat
  http_status : Option Nat := none
  message : Option String := none
  error_type : Option String := none
deriving DecidableEq

/-- Dataclass `GetResult` (source lines 86-94). -/
structure GetResult where
  status : String
  attempts : Nat
  http_status : Option Nat := none
  message : Option String := none
  error_type : Option String := none
  payload : Option Payload := none
deriving DecidableEq

/-- Instrumented output of one retry-wrapper invocation: the returned
result, the number of remote calls actually made, and the sleeps
performed (in seconds, exact rationals). -/
structure RetryTrace (ρ : Type) where
  result : ρ
  calls : Nat
  sleeps : List ℚ
deriving DecidableEq

/-! ### Retry wrappers (source lines 130-263)

`behav n` is the behaviour of the remote call made at attempt `n`;
`jit n` is the value `random.uniform(0, jitter)` drawn before retry `n`.
The loop `for attempt in range(1, retries + 2)` is modelled with a fuel
counter equal to the number of loop iterations remaining; exhausting the
fuel is the fall-through return after the loop (line 175). -/
def cancelAux (behav : Nat → CallBehavior) (retries : Nat) (base_backoff : ℚ)
    (jit : Nat → ℚ) : Nat → Nat → RetryTrace CancelResult
  | _, 0 =>
    ⟨{ status := "failure", attempts := retries + 1, error_type := some "unknown" }, 0, []⟩
  | attempt, fuel + 1 =>
    match behav attempt with
    | .succeeds _ =>
      ⟨{ status := "success", attempts := attempt, http_status := some 204 }, 1, []⟩
    | .httpError st msg =>
      if inRetryStatus st = true ∧ attempt ≤ retries then
        let d := base_backoff * 2 ^ (attempt - 1) + jit attempt
        let t := cancelAux behav retries base_backoff jit (attempt + 1) fuel
        ⟨t.result, t.calls + 1, d :: t.sleeps⟩
      else
        ⟨{ status := "failure", attempts := attempt, http_status := st,
           message := some msg, error_type := some (classify_error msg) }, 1, []⟩
    | .raiseExc msg =>
      ⟨{ status := "failure", attempts := attempt, http_status := none,
         message := some msg, error_type := some "exception" }, 1, []⟩

/-- Function `cancel_with_retries` (lines 130-175). The `jitter` bound only feeds
the random draw, modelled by `jit`. -/
def cancel_with_retries (behav : Nat → CallBehavior) (retries : Nat)
    (base_backoff jitter : ℚ) (jit : Nat → ℚ) : RetryTrace CancelResult :=
  cancelAux behav retries base_backoff jit 1 (retries + 1)

def getAux (behav : Nat → CallBehavior) (retries : Nat) (base_backoff : ℚ)
    (jit : Nat → ℚ) : Nat → Nat → RetryTrace GetResult
  | _, 0 =>
    ⟨{ status := "failure", attempts := retries + 1, error_type := some "unknown" }, 0, []⟩
  | attempt, fuel + 1 =>
    match behav attempt with
    | .succeeds payload =>
      ⟨{ status := "success", attempts := attempt, http_status := some 200,
         payload := some payload }, 1, []⟩
    | .httpError st msg =>
      if inRetryStatus st = true ∧ attempt ≤ retries then
        let d := base_backoff * 2 ^ (attempt - 1) + jit attempt
        let t := getAux behav retries base_backoff jit (attempt + 1) fuel
        ⟨t.result, t.calls + 1, d :: t.sleeps⟩
      else
        ⟨{ status := "failure", attempts := attempt, http_status := st,
           message := some msg, error_type := some (classify_error msg) }, 1, []⟩
    | .raiseExc msg =>
      ⟨{ status := "failure", attempts := attempt, http_status := none,
         message := some msg, error_type := some "exception" }, 1, []⟩

/-- Function `get_with_retries` (lines 178-221). -/
def get_with_retries (behav : Nat → CallBehavior) (retries : Nat)
    (base_backoff jitter : ℚ) (jit : Nat → ℚ) : RetryTrace GetResult :=
  getAux behav retries base_backoff jit 1 (retries + 1)

def revokeAux (behav : Nat → CallBehavior) (retries : Nat) (base_backoff : ℚ)
    (jit : Nat → ℚ) : Nat → Nat → RetryTrace CancelResult
  | _, 0 =>
    ⟨{ status := "failure", attempts := retries + 1, error_type := some "unknown" }, 0, []⟩
  | attempt, fuel + 1 =>
    match behav attempt with
    | .succeeds _ =>
      ⟨{ status := "success", attempts := attempt, http_status := some 204 }, 1, []⟩
    | .httpError st msg =>
      if inRetryStatus st = true ∧ attempt ≤ retries then
        let d := base_backoff * 2 ^ (attempt - 1) + jit attempt
        let t := revokeAux behav retries base_backoff jit (attempt + 1) fuel
        ⟨t.result, t.calls + 1, d :: t.sleeps⟩
      else
        ⟨{ status := "failure", attempts := attempt, http_status := st,
           message := some msg, error_type := some (classify_error msg) }, 1, []⟩
    | .raiseExc msg =>
      ⟨{ status := "failure", attempts := attempt, http_status := none,
         message := some msg, error_type := some "exception" }, 1, []⟩

/-- Function `revoke_prorated_with_retries` (lines 224-263). -/
def revoke_prorated_with_retries (behav : Nat → CallBehavior) (retries : Nat)
    (base_backoff jitter : ℚ) (jit : Nat → ℚ) : RetryTrace CancelResult :=
  revokeAux behav retries base_backoff jit 1 (retries + 1)

/-- Forgetting the payload of a `GetResult`. -/
def GetResult.toCancel (g : GetResult) : CancelResult :=
  ⟨g.status, g.attempts, g.http_status, g.message, g.error_type⟩

/-- Whether a call behaviour is an HttpError with a retryable status. -/
def transientB : CallBehavior → Bool
  | .httpError st _ => inRetryStatus st
  | _ => false

/-! ### Reservoir sampling (`sample_rows`, lines 411-425)

`rand i` models `random.randint(1, i)` for the i-th row. -/
def sampleAux {α : Type} (k : Nat) (rand : Nat → Nat) : Nat → List α → List α → List α
  | _, res, [] => res
  | i, res, row :: rest =>
    if i ≤ k then sampleAux k rand (i + 1) (res ++ [row]) rest
    else
      let j := rand i
      if j ≤ k then sampleAux k rand (i + 1) (res.set (j - 1) row) rest
      else sampleAux k rand (i + 1) res rest

def sample_rows {α : Type} (k : Nat) (rand : Nat → Nat) (rows : List α) : List α :=
  if k = 0 then [] else sampleAux k rand 1 [] rows

/-! ### Config merging (`apply_config`)

Attribute namespaces and config dicts are modelled as ordered
association lists of attribute name to value; `Val.vnull` is Python
`None`. -/
inductive Val where
  | vs (s : String)
  | vi (n : Int)
  | vq (q : ℚ)
  | vb (b : Bool)
  | vnull
deriving DecidableEq

/-- The `DEFAULTS` dict (scripts/cancel_subscriptions.py lines 46-73). -/
def DEFAULTS : List (String × Val) :=
  [("config", .vnull), ("input", .vnull), ("token_column", .vs "purchaseToken"),
   ("subscription_id_column", .vs "subscriptionId"), ("package_column", .vs "package"),
   ("product_column", .vs "product"), ("order_id_column", .vs "order_id"),
   ("service_account", .vnull), ("package_name", .vnull), ("log", .vnull),
   ("delay", .vq (15 / 100)), ("retries", .vi 3), ("backoff", .vq (1 / 4)),
   ("jitter", .vq (1 / 4)), ("max_rows", .vnull), ("dry_run", .vb false),
   ("progress", .vb true), ("timestamp_logs", .vb true), ("mode", .vs "cancel"),
   ("eligible_output", .vnull), ("ineligible_output", .vnull),
   ("log_response", .vb false), ("checkpoint", .vnull),
   ("checkpoint_success", .vnull), ("checkpoint_failed", .vnull),
   ("sample_size", .vnull)]

/-- Python `setattr(args, k, v)` on an existing attribute. -/
def setAttr (a : List (String × Val)) (k : String) (v : Val) : List (String × Val) :=
  a.map (fun p => if p.1 = k then (k, v) else p)

/-- Function `apply_config` from scripts/cancel_subscriptions.py lines 428-442:
null config values are skipped and a value is applied only when the
current attribute is still at its `DEFAULTS` value. -/
def apply_config (args : List (String × Val)) (cfg : List (String × Val)) :
    List (String × Val) :=
  cfg.foldl (fun a kv =>
    if kv.2 = Val.vnull then a
    else
      match a.lookup kv.1 with
      | none => a
      | some current =>
        if current ≠ (DEFAULTS.lookup kv.1).getD Val.vnull then a
        else setAttr a kv.1 kv.2) args

/-- Function `apply_config` from the top-level `src/cancel_subscriptions.py`
(lines 199-208): null config values are skipped but every other value is
applied unconditionally, with no check against defaults. -/
def apply_config_root (args : List (String × Val)) (cfg : List (String × Val)) :
    List (String × Val) :=
  cfg.foldl (fun a kv =>
    if kv.2 = Val.vnull then a
    else if (a.lookup kv.1).isSome then setAttr a kv.1 kv.2
    else a) args

/-! ### The run loop (`run`, lines 465-834)

A `Row` carries the values of the resolved columns (`none` when the
cell is absent); `oracle inv` is the behaviour stream of the
`inv`-th remote wrapper invocation of the run, and `jitO inv` its jitter
draws. The state carries the totals, the in-memory success set, and
instrumentation: tokens for which a remote wrapper was invoked, audit
records written, lines appended to each checkpoint file, rows written to
the two validate exports, and the number of rows considered. -/
structure Row where
  token : Option String
  package : Option String
  product : Option String
  order_id : Option String
  subscription_id : Option String
deriving DecidableEq

inductive Mode where
  | cancel
  | validate
  | revokeProrated
deriving DecidableEq

structure Args where
  mode : Mode
  dry_run : Bool
  retries : Nat
  backoff : ℚ
  jitter : ℚ
  package_name : Option String
  max_rows : Option Nat
  packageFieldResolved : Bool
  productFieldResolved : Bool
  orderFieldResolved : Bool
  hasSuccessCkpt : Bool
  hasFailedCkpt : Bool
deriving DecidableEq

structure Totals where
  processed : Nat
  success : Nat
  already_cancelled : Nat
  failed_transient : Nat
  failed_permanent : Nat
  dry_run : Nat
  skipped : Nat
deriving DecidableEq

structure AuditRecord where
  purchaseToken : String
  status : String
  attempts : Nat
  httpStatus : Option Nat
  errorType : Option String
  message : Option String
  rowIndex : Nat
deriving DecidableEq

structure EligibleRow where
  token : String
  package : String
  product : Option String
  order_id : Option String
  subscription_state : Option String
  expiry_time : Option String
  auto_renew_enabled : Option Bool
  latest_order_id : Option String
deriving DecidableEq

structure IneligibleRow where
  token : String
  package : String
  product : Option String
  order_id : Option String
  subscription_state : Option String
  expiry_time : Option String
  auto_renew_enabled : Option Bool
  latest_order_id : Option String
  status : String
  http_status : Option Nat
  error_type : Option String
  message : Option String
deriving DecidableEq

structure RunState where
  totals : Totals
  processedTokens : List String
  remoteTokens : List String
  audit : List AuditRecord
  ckptSuccess : List String
  ckptFailed : List String
  eligibleRows : List EligibleRow
  ineligibleRows : List IneligibleRow
  considered : Nat
deriving DecidableEq

/-- Function `pick_package` (lines 395-399). -/
def pick_package (rowPackage : Option String) (fieldResolved : Bool)
    (fallback : Option String) : Option String :=
  if fieldResolved then
    match rowPackage with
    | some v => if v = "" then fallback else some (pyStrip v)
    | none => fallback
  else fallback

/-- Function `pick_field` (lines 402-408). -/
def pick_field (value : Option String) (fieldResolved : Bool) : Option String :=
  if fieldResolved then value.map pyStrip else none

/-- The package-mismatch test of lines 644-649 (`args.package_name` is
truthy and differs from the resolved package). -/
def pkgMismatch (argPkg : Option String) (pkg : String) : Bool :=
  match argPkg with
  | some p => decide (p ≠ "") && decide (pkg ≠ p)
  | none => false

/-- The `max_rows` break test of line 625 (`0` and `None` are falsy). -/
def maxRowsBreak (maxRows : Option Nat) (processed : Nat) : Bool :=
  match maxRows with
  | none => false
  | some m => decide (m ≠ 0) && decide (m ≤ processed)

/-- Statement `totals["skipped"] += 1; continue`. -/
def addSkip (st : RunState) : RunState :=
  { st with totals := { st.totals with skipped := st.totals.skipped + 1 } }

/-- Totals bucketing of a validate-mode result (lines 696-703). -/
def getBucket (g : GetResult) (t : Totals) : Totals :=
  if g.status = "success" then { t with success := t.success + 1 }
  else if g.status = "dry_run" then { t with dry_run := t.dry_run + 1 }
  else if inRetryStatus g.http_status then
    { t with failed_transient := t.failed_transient + 1 }
  else { t with failed_permanent := t.failed_permanent + 1 }

/-- Totals bucketing of a cancel/revoke result (lines 776-785). -/
def cancelBucket (r : CancelResult) (t : Totals) : Totals :=
  if r.status = "success" then { t with success := t.success + 1 }
  else if r.status = "dry_run" then { t with dry_run := t.dry_run + 1 }
  else if r.error_type = some "already_cancelled" then
    { t with already_cancelled := t.already_cancelled + 1 }
  else if inRetryStatus r.http_status then
    { t with failed_transient := t.failed_transient + 1 }
  else { t with failed_permanent := t.failed_permanent + 1 }

/-- Assignment `payload = get_result.payload or` the empty dict (line 705). -/
def effPayload (g : GetResult) : Payload := g.payload.getD emptyPayload

/-- The `expiry_time` extraction (lines 708-712). -/
def extractExpiry (p : Payload) : Option String :=
  match p.lineItems with
  | [] => none
  | li :: _ => li.expiryTime

/-- The `auto_renew_enabled` extraction (lines 713-714). -/
def extractAutoRenew (p : Payload) : Option Bool :=
  match p.lineItems with
  | [] => none
  | li :: _ => ((li.autoRenewingPlan).getD ⟨none⟩).autoRenewEnabled

/-- The `latest_order_id` extraction (lines 710, 715-716). -/
def extractLatestOrder (p : Payload) : Option String :=
  match p.lineItems with
  | [] => p.latestOrderId
  | li :: _ =>
    match li.latestSuccessfulOrderId with
    | some s => if s = "" then p.latestOrderId else some s
    | none => p.latestOrderId

/-- Test `eligible = subscription_state in ELIGIBLE_STATES` (line 718). -/
def isEligible (g : GetResult) : Bool :=
  match (effPayload g).subscriptionState with
  | some s => ELIGIBLE_STATES.contains s
  | none => false

/-- The validate-mode block of the loop body (lines 695-771): bucket the
result, route the row to the eligible or ineligible export, and write
one audit record. -/
def validateBranch (token pkg : String) (product order_id : Option String)
    (idx : Nat) (g : GetResult) (st : RunState) : RunState :=
  let p := effPayload g
  let state := p.subscriptionState
  let expiry := extractExpiry p
  let auto := extractAutoRenew p
  let latest := extractLatestOrder p
  let st1 : RunState := { st with totals := getBucket g st.totals }
  let st2 : RunState :=
    if isEligible g then
      { st1 with eligibleRows := st1.eligibleRows ++
          [⟨token, pkg, product, order_id, state, expiry, auto, latest⟩] }
    else
      { st1 with ineligibleRows := st1.ineligibleRows ++
          [⟨token, pkg, product, order_id, state, expiry, auto, latest,
            g.status, g.http_status, g.error_type, g.message⟩] }
  { st2 with audit := st2.audit ++
      [⟨token, g.status, g.attempts, g.http_status, g.error_type, g.message, idx⟩] }

/-- The cancel/revoke block of the loop body (lines 772-801): bucket the
result and write one audit record. -/
def cancelBranch (token : String) (idx : Nat) (r : CancelResult) (st : RunState) : RunState :=
  { st with totals := cancelBucket r st.totals,
            audit := st.audit ++
              [⟨token, r.status, r.attempts, r.http_status, r.error_type, r.message, idx⟩] }

/-- The checkpoint step of the loop body (lines 803-812): outside
dry-run, a success appends to the success checkpoint (when configured)
and joins the in-memory set; otherwise the token may be appended to the
failed checkpoint. -/
def checkpointStep (args : Args) (token : String) (succ : Bool) (st : RunState) : RunState :=
  if args.dry_run then st
  else if succ then
    if args.hasSuccessCkpt then
      { st with ckptSuccess := st.ckptSuccess ++ [token],
                processedTokens := st.processedTokens ++ [token] }
    else st
  else if args.hasFailedCkpt then
    { st with ckptFailed := st.ckptFailed ++ [token] }
  else st

/-- One iteration of the loop body (lines 624-816). -/
def processRow (args : Args) (oracle : Nat → Nat → CallBehavior) (jitO : Nat → Nat → ℚ)
    (row : Row) (idx : Nat) (st0 : RunState) : RunState :=
  let st := { st0 with considered := st0.considered + 1 }
  let token := pyStrip (row.token.getD "")
  if token = "" then addSkip st
  else if token ∈ st.processedTokens then addSkip st
  else
    match pick_package row.package args.packageFieldResolved args.package_name with
    | none => addSkip st
    | some pkg =>
      if pkg = "" then addSkip st
      else if pkgMismatch args.package_name pkg = true then addSkip st
      else
        let product := pick_field row.product args.productFieldResolved
        let order_id := pick_field row.order_id args.orderFieldResolved
        let st1 : RunState :=
          { st with totals := { st.totals with processed := st.totals.processed + 1 } }
        if args.mode = Mode.validate then
          if args.dry_run then
            let g : GetResult := ⟨"dry_run", 0, none, none, none, none⟩
            checkpointStep args token (g.status == "success")
              (validateBranch token pkg product order_id idx g st1)
          else
            let g := (get_with_retries (oracle st1.remoteTokens.length) args.retries
                        args.backoff args.jitter (jitO st1.remoteTokens.length)).result
            let st2 : RunState := { st1 with remoteTokens := st1.remoteTokens ++ [token] }
            checkpointStep args token (g.status == "success")
              (validateBranch token pkg product order_id idx g st2)
        else if args.dry_run then
          let r : CancelResult := ⟨"dry_run", 0, none, none, none⟩
          checkpointStep args token (r.status == "success") (cancelBranch token idx r st1)
        else if args.mode = Mode.revokeProrated then
          let r := (revoke_prorated_with_retries (oracle st1.remoteTokens.length) args.retries
                      args.backoff args.jitter (jitO st1.remoteTokens.length)).result
          let st2 : RunState := { st1 with remoteTokens := st1.remoteTokens ++ [token] }
          checkpointStep args token (r.status == "success") (cancelBranch token idx r st2)
        else
          let r := (cancel_with_retries (oracle st1.remoteTokens.length) args.retries
                      args.backoff args.jitter (jitO st1.remoteTokens.length)).result
          let st2 : RunState := { st1 with remoteTokens := st1.remoteTokens ++ [token] }
          checkpointStep args token (r.status == "success") (cancelBranch token idx r st2)

/-- The loop over rows (lines 624-626), with the max-rows break checked
before each row. -/
def runLoop (args : Args) (oracle : Nat → Nat → CallBehavior) (jitO : Nat → Nat → ℚ) :
    List Row → Nat → RunState → RunState
  | [], _, st => st
  | row :: rest, idx, st =>
    if maxRowsBreak args.max_rows st.totals.processed then st
    else runLoop args oracle jitO rest (idx + 1) (processRow args oracle jitO row idx st)

/-- Function `load_checkpoint` (lines 332-345): strip each line, keep the
non-empty ones; a missing path or file yields the empty set. -/
def load_checkpoint (contents : Option (List String)) : List String :=
  match contents with
  | none => []
  | some lines => (lines.map pyStrip).filter (fun t => decide (t ≠ ""))

def emptyTotals : Totals := ⟨0, 0, 0, 0, 0, 0, 0⟩

def initState (tokens : List String) : RunState :=
  ⟨emptyTotals, tokens, [], [], [], [], [], [], 0⟩

/-- One whole run (lines 541-543 then 623-816): the in-memory success
set is loaded from the success checkpoint file only; the failed
checkpoint file is opened append-only and never read. -/
def runBatch (args : Args) (oracle : Nat → Nat → CallBehavior) (jitO : Nat → Nat → ℚ)
    (successFile failedFile : Option (List String)) (rows : List Row) : RunState :=
  runLoop args oracle jitO rows 1 (initState (load_checkpoint successFile))

/-- The disjunction of the four skip conditions of lines 628-649. -/
def skipReason (args : Args) (row : Row) (knownTokens : List String) : Bool :=
  let token := pyStrip (row.token.getD "")
  token == "" || decide (token ∈ knownTokens) ||
    (match pick_package row.package args.packageFieldResolved args.package_name with
     | none => true
     | some pkg => pkg == "" || pkgMismatch args.package_name pkg)

/-- Attribute list and config dict exhibiting the merge divergence:
`retries` was set to 5 on the command line (its built-in default is 3). -/
def argsC9 : List (String × Val) := [("retries", Val.vi 5)]

def cfgC9 : List (String × Val) := [("retries", Val.vi 7)]

/-! ### Concrete fixtures for witnesses -/
/-- A remote endpoint that always answers HTTP 503. -/
def behavT : Nat → CallBehavior := fun _ => CallBehavior.httpError (some 503) ""

/-- A remote endpoint that always raises a transport exception. -/
def behavE : Nat → CallBehavior := fun _ => CallBehavior.raiseExc "boom"

/-- The zero jitter stream. -/
def jit0 : Nat → ℚ := fun _ => 0

/-- A run oracle whose every call succeeds. -/
def oracleW : Nat → Nat → CallBehavior := fun _ _ => CallBehavior.succeeds emptyPayload

def jitW : Nat → Nat → ℚ := fun _ _ => 0

def rowW : Row := ⟨some "tok1", none, none, none, none⟩

def argsDryW : Args :=
  ⟨Mode.cancel, true, 0, 0, 0, some "pkg", none, false, false, false, true, true⟩

def argsLiveW : Args :=
  ⟨Mode.cancel, false, 0, 0, 0, some "pkg", none, false, false, false, true, true⟩

def randW : Nat → Nat := fun i => i

def rowsW3 : List Row :=
  [⟨some "a", none, none, none, none⟩,
   ⟨some "b", none, none, none, none⟩,
   ⟨some "c", none, none, none, none⟩]

def gActive : GetResult :=
  ⟨"success", 1, some 200, none, none, some ⟨some "SUBSCRIPTION_STATE_ACTIVE", none, []⟩⟩

def gExpired : GetResult :=
  ⟨"success", 1, some 200, none, none, some ⟨some "SUBSCRIPTION_STATE_EXPIRED", none, []⟩⟩

/-! ### Theorems -/

theorem dropWhile_head_false {p : Char → Bool} {l : List Char} {a : Char} {rest : List Char}
    (h : l.dropWhile p = a :: rest) : p a = false := by
  induction l with
  | nil => simp at h
  | cons x xs ih =>
    by_cases hx : p x
    · rw [List.dropWhile_cons_of_pos hx] at h; exact ih h
    · rw [List.dropWhile_cons_of_neg hx] at h
      cases h; simpa using hx

theorem dropWhile_of_head_false {p : Char → Bool} {l : List Char}
    (h : ∀ a rest, l = a :: rest → p a = false) : l.dropWhile p = l := by
  cases l with
  | nil => rfl
  | cons x xs => exact List.dropWhile_cons_of_neg (by simp [h x xs rfl])

theorem dropWhile_idem (p : Char → Bool) (l : List Char) :
    (l.dropWhile p).dropWhile p = l.dropWhile p := by
  apply dropWhile_of_head_false
  intro a rest h
  exact dropWhile_head_false h

/-- Stripping is idempotent: a token already stripped is unchanged by a
second strip (used to relate checkpoint appends to checkpoint reloads). -/
theorem pyStrip_idem (s : String) : pyStrip (pyStrip s) = pyStrip s := by
  unfold pyStrip
  apply congrArg String.mk
  set p := Char.isWhitespace with hp
  set A := s.data.dropWhile p with hA
  set B := (A.reverse.dropWhile p) with hB
  have hA_decomp : A = B.reverse ++ (A.reverse.takeWhile p).reverse := by
    have h := List.takeWhile_append_dropWhile p A.reverse
    have h2 := congrArg List.reverse h
    simp only [List.reverse_append, List.reverse_reverse] at h2
    rw [← hB] at h2
    exact h2.symm
  have hheadA : ∀ a rest, A = a :: rest → p a = false := by
    intro a rest h; exact @dropWhile_head_false p s.data a rest (by rw [← hA, h])
  obtain ⟨X, hX⟩ : ∃ X, A = B.reverse ++ X := ⟨_, hA_decomp⟩
  have h1 : B.reverse.dropWhile p = B.reverse := by
    cases hBr : B.reverse with
    | nil => rfl
    | cons a rest =>
      apply List.dropWhile_cons_of_neg
      have hcons : A = a :: (rest ++ X) := by rw [hX, hBr]; rfl
      simp [hheadA a _ hcons]
  have h2 : B.dropWhile p = B := by rw [hB, dropWhile_idem]
  calc ((B.reverse.dropWhile p).reverse.dropWhile p).reverse
      = ((B.reverse).reverse.dropWhile p).reverse := by rw [h1]
    _ = (B.dropWhile p).reverse := by rw [List.reverse_reverse]
    _ = B.reverse := by rw [h2]

/-- The retry loops of cancel and revoke are textually identical. -/
theorem revokeAux_eq_cancelAux (behav : Nat → CallBehavior) (retries : Nat)
    (B : ℚ) (jit : Nat → ℚ) (attempt fuel : Nat) :
    revokeAux behav retries B jit attempt fuel = cancelAux behav retries B jit attempt fuel := by
  induction fuel generalizing attempt with
  | zero => rfl
  | succ n ih =>
    rw [revokeAux, cancelAux]
    cases behav attempt with
    | succeeds p => rfl
    | httpError st msg =>
      by_cases h : inRetryStatus st = true ∧ attempt ≤ retries
      · simp only [if_pos h, ih]
      · simp only [if_neg h]
    | raiseExc msg => rfl

/-- The get retry loop agrees with the cancel retry loop except for the
success payload and HTTP 200 status. -/
theorem getAux_toCancel (behav : Nat → CallBehavior) (retries : Nat)
    (B : ℚ) (jit : Nat → ℚ) (attempt fuel : Nat) :
    ((getAux behav retries B jit attempt fuel).result.toCancel =
      { (cancelAux behav retries B jit attempt fuel).result with
        http_status :=
          if (cancelAux behav retries B jit attempt fuel).result.status = "success"
          then some 200 else (cancelAux behav retries B jit attempt fuel).result.http_status }) ∧
    (getAux behav retries B jit attempt fuel).calls =
      (cancelAux behav retries B jit attempt fuel).calls ∧
    (getAux behav retries B jit attempt fuel).sleeps =
      (cancelAux behav retries B jit attempt fuel).sleeps := by
  induction fuel generalizing attempt with
  | zero =>
    refine ⟨?_, rfl, rfl⟩
    simp [getAux, cancelAux, GetResult.toCancel]
  | succ n ih =>
    rw [getAux, cancelAux]
    cases behav attempt with
    | succeeds p => exact ⟨by simp [GetResult.toCancel], rfl, rfl⟩
    | httpError st msg =>
      by_cases h : inRetryStatus st = true ∧ attempt ≤ retries
      · simp only [if_pos h]
        obtain ⟨h1, h2, h3⟩ := ih (attempt + 1)
        exact ⟨h1, by simp [h2], by simp [h3]⟩
      · simp only [if_neg h]
        exact ⟨by simp [GetResult.toCancel], by trivial, by trivial⟩
    | raiseExc msg =>
      exact ⟨by simp [GetResult.toCancel], by trivial, by trivial⟩

/-- Also record whether a get invocation can carry a payload: only a
successful fetch does. -/
theorem getAux_payload (behav : Nat → CallBehavior) (retries : Nat)
    (B : ℚ) (jit : Nat → ℚ) (attempt fuel : Nat) :
    (cancelAux behav retries B jit attempt fuel).result.status = "success" ∨
      (getAux behav retries B jit attempt fuel).result.payload = none := by
  induction fuel generalizing attempt with
  | zero => right; rfl
  | succ n ih =>
    rw [getAux, cancelAux]
    cases behav attempt with
    | succeeds p => left; rfl
    | httpError st msg =>
      by_cases h : inRetryStatus st = true ∧ attempt ≤ retries
      · simp only [if_pos h]; exact ih (attempt + 1)
      · simp only [if_neg h]; right; trivial
    | raiseExc msg => right; trivial

/-- The classifier never emits the sentinel string of the dead
fall-through return. -/
theorem classify_error_mem (m : String) :
    classify_error m ∈ ["already_cancelled", "not_found", "permission", "other"] := by
  simp only [classify_error]
  split_ifs <;> simp

theorem classify_error_ne_unknown (m : String) : classify_error m ≠ "unknown" := by
  have h := classify_error_mem m
  simp only [List.mem_cons, List.not_mem_nil, or_false] at h
  rcases h with h | h | h | h <;> simp [h]

/-- Core facts about the cancel retry loop, at any point of the
iteration: attempt accounting, call bounds, absence of the fall-through
sentinel, and the exact sleep schedule. -/
theorem cancelAux_spec (behav : Nat → CallBehavior) (R : Nat) (B : ℚ) (jit : Nat → ℚ) :
    ∀ fuel attempt, attempt + fuel = R + 2 → 1 ≤ fuel → 1 ≤ attempt →
    (cancelAux behav R B jit attempt fuel).result.attempts + 1 =
      attempt + (cancelAux behav R B jit attempt fuel).calls ∧
    1 ≤ (cancelAux behav R B jit attempt fuel).calls ∧
    (cancelAux behav R B jit attempt fuel).calls ≤ fuel ∧
    (cancelAux behav R B jit attempt fuel).result.error_type ≠ some "unknown" ∧
    (cancelAux behav R B jit attempt fuel).sleeps =
      (List.range ((cancelAux behav R B jit attempt fuel).calls - 1)).map
        (fun m => B * 2 ^ (attempt - 1 + m) + jit (attempt + m)) := by
  intro fuel
  induction fuel with
  | zero => intro attempt _ h1 _; exact absurd h1 (by omega)
  | succ n ih =>
    intro attempt hinv _ hatt
    rw [cancelAux]
    cases hb : behav attempt with
    | succeeds p =>
      refine ⟨?_, ?_, ?_, ?_, ?_⟩ <;> first | trivial | simp | omega | decide
    | raiseExc msg =>
      refine ⟨?_, ?_, ?_, ?_, ?_⟩ <;> first | trivial | simp | omega | decide
    | httpError st msg =>
      by_cases hc : inRetryStatus st = true ∧ attempt ≤ R
      · simp only [if_pos hc]
        have hn : 1 ≤ n := by omega
        obtain ⟨ih1, ih2, ih3, ih4, ih5⟩ := ih (attempt + 1) (by omega) hn (by omega)
        refine ⟨by omega, by omega, by omega, ih4, ?_⟩
        obtain ⟨k, hk⟩ : ∃ k, (cancelAux behav R B jit (attempt + 1) n).calls = k + 1 :=
          ⟨(cancelAux behav R B jit (attempt + 1) n).calls - 1, by omega⟩
        rw [hk] at ih5
        rw [hk, Nat.add_sub_cancel, ih5, List.range_succ_eq_map, List.map_cons, List.map_map]
        simp only [List.cons.injEq]
        constructor
        · simp
        · apply List.map_congr_left
          intro m _
          have e1 : attempt + 1 - 1 + m = attempt - 1 + (m + 1) := by omega
          have e2 : attempt + 1 + m = attempt + (m + 1) := by omega
          simp [Function.comp, e1, e2]
          left
          omega
      · simp only [if_neg hc]
        refine ⟨?_, ?_, ?_, ?_, ?_⟩
        · first | trivial | omega
        · first | trivial | omega
        · first | trivial | omega
        · first
          | trivial
          | (intro hcontra
             exact classify_error_ne_unknown msg (by simpa using hcontra))
        · first | trivial | simp

/-- If every remote call comes back with a retryable HTTP status, the
loop runs to exhaustion: `retries + 1` calls are made. -/
theorem cancelAux_transient (behav : Nat → CallBehavior) (R : Nat) (B : ℚ) (jit : Nat → ℚ)
    (htr : ∀ n, transientB (behav n) = true) :
    ∀ fuel attempt, attempt + fuel = R + 2 → 1 ≤ fuel →
    (cancelAux behav R B jit attempt fuel).result.attempts = R + 1 ∧
    (cancelAux behav R B jit attempt fuel).calls = fuel := by
  intro fuel
  induction fuel with
  | zero => intro attempt _ h1; exact absurd h1 (by omega)
  | succ n ih =>
    intro attempt hinv _
    rw [cancelAux]
    have htra := htr attempt
    cases hb : behav attempt with
    | succeeds p => rw [hb] at htra; simp [transientB] at htra
    | raiseExc msg => rw [hb] at htra; simp [transientB] at htra
    | httpError st msg =>
      rw [hb] at htra
      have hst : inRetryStatus st = true := by simpa [transientB] using htra
      by_cases hle : attempt ≤ R
      · simp only [if_pos (And.intro hst hle)]
        have hn : 1 ≤ n := by omega
        obtain ⟨ih1, ih2⟩ := ih (attempt + 1) (by omega) hn
        refine ⟨ih1, ?_⟩
        show (cancelAux behav R B jit (attempt + 1) n).calls + 1 = n + 1
        omega
      · have hatt : attempt = R + 1 := by omega
        have : ¬(inRetryStatus st = true ∧ attempt ≤ R) := by tauto
        simp only [if_neg this]
        constructor
        · show attempt = R + 1
          omega
        · show 1 = n + 1
          omega

/-- A call that raises a non-HttpError exception terminates the loop at
once, with the current attempt count, no HTTP status and error type
`exception`. -/
theorem cancelAux_exc (behav : Nat → CallBehavior) (R : Nat) (B : ℚ) (jit : Nat → ℚ)
    (K : Nat) (msg : String) (hK : behav K = .raiseExc msg) :
    ∀ fuel attempt, attempt + fuel = R + 2 → 1 ≤ fuel → 1 ≤ attempt →
    attempt ≤ K → K ≤ R + 1 →
    (∀ n, attempt ≤ n → n < K → transientB (behav n) = true) →
    (cancelAux behav R B jit attempt fuel).result =
      ⟨"failure", K, none, some msg, some "exception"⟩ ∧
    (cancelAux behav R B jit attempt fuel).calls + attempt = K + 1 := by
  intro fuel
  induction fuel with
  | zero => intro attempt _ h1; exact absurd h1 (by omega)
  | succ n ih =>
    intro attempt hinv _ hatt hattK hKR htr
    rw [cancelAux]
    rcases Nat.lt_or_ge attempt K with hlt | hge
    · have htra := htr attempt (le_refl attempt) hlt
      cases hb : behav attempt with
      | succeeds p => rw [hb] at htra; simp [transientB] at htra
      | raiseExc m => rw [hb] at htra; simp [transientB] at htra
      | httpError st m =>
        rw [hb] at htra
        have hst : inRetryStatus st = true := by simpa [transientB] using htra
        have hle : attempt ≤ R := by omega
        simp only [if_pos (And.intro hst hle)]
        have hn : 1 ≤ n := by omega
        obtain ⟨ih1, ih2⟩ := ih (attempt + 1) (by omega) hn (by omega) (by omega) hKR
          (fun m hm1 hm2 => htr m (by omega) hm2)
        refine ⟨ih1, ?_⟩
        show (cancelAux behav R B jit (attempt + 1) n).calls + 1 + attempt = K + 1
        omega
    · have heq : attempt = K := by omega
      subst heq
      rw [hK]
      exact ⟨rfl, Nat.add_comm 1 _⟩

/-- Rebuild a `GetResult` from its payload-free projection. -/
theorem GetResult.eq_of_toCancel {g : GetResult} {c : CancelResult}
    (h : g.toCancel = c) (hp : g.payload = none) :
    g = ⟨c.status, c.attempts, c.http_status, c.message, c.error_type, none⟩ := by
  cases g with
  | mk s a hs m e p =>
    cases c with
    | mk s2 a2 hs2 m2 e2 =>
      simp only [GetResult.toCancel, CancelResult.mk.injEq] at h
      obtain ⟨h1, h2, h3, h4, h5⟩ := h
      simp at hp
      subst h1; subst h2; subst h3; subst h4; subst h5; subst hp
      rfl

theorem getD_map_range (k m : Nat) (f : Nat → ℚ) (h : m < k) :
    ((List.range k).map f).getD m 0 = f m := by
  rw [List.getD_eq_getElem?_getD, List.getElem?_map, List.getElem?_range h]
  rfl

/-- C2: each retry wrapper makes between 1 and R+1 remote calls, the
returned attempts field counts exactly the calls made, an all-transient
behaviour exhausts all R+1 attempts, the n-th sleep is
`B * 2^(n-1) + jit n` (hence lies in `[B*2^(n-1), B*2^(n-1)+J]` when the
draws lie in `[0, J]`), and the pre-jitter backoff is non-decreasing for
`B ≥ 0`; revoke behaves identically to cancel and get agrees with cancel
on calls, sleeps and attempts. -/
theorem c2_retry_executor (R : Nat) (B J : ℚ) (behav : Nat → CallBehavior) (jit : Nat → ℚ) :
    1 ≤ (cancel_with_retries behav R B J jit).calls ∧
    (cancel_with_retries behav R B J jit).calls ≤ R + 1 ∧
    (cancel_with_retries behav R B J jit).result.attempts =
      (cancel_with_retries behav R B J jit).calls ∧
    ((∀ n, transientB (behav n) = true) →
      (cancel_with_retries behav R B J jit).result.attempts = R + 1 ∧
      (cancel_with_retries behav R B J jit).calls = R + 1) ∧
    (cancel_with_retries behav R B J jit).sleeps =
      (List.range ((cancel_with_retries behav R B J jit).calls - 1)).map
        (fun m => B * 2 ^ m + jit (m + 1)) ∧
    ((∀ n, 0 ≤ jit n ∧ jit n ≤ J) →
      ∀ m, m < (cancel_with_retries behav R B J jit).sleeps.length →
      B * 2 ^ m ≤ (cancel_with_retries behav R B J jit).sleeps.getD m 0 ∧
      (cancel_with_retries behav R B J jit).sleeps.getD m 0 ≤ B * 2 ^ m + J) ∧
    (0 ≤ B → ∀ m : Nat, B * 2 ^ m ≤ B * 2 ^ (m + 1)) ∧
    revoke_prorated_with_retries behav R B J jit = cancel_with_retries behav R B J jit ∧
    (get_with_retries behav R B J jit).calls = (cancel_with_retries behav R B J jit).calls ∧
    (get_with_retries behav R B J jit).sleeps = (cancel_with_retries behav R B J jit).sleeps ∧
    (get_with_retries behav R B J jit).result.attempts =
      (cancel_with_retries behav R B J jit).result.attempts := by
  simp only [cancel_with_retries, get_with_retries, revoke_prorated_with_retries]
  obtain ⟨h1, h2, h3, _, h5⟩ :=
    cancelAux_spec behav R B jit (R + 1) 1 (by omega) (by omega) (by omega)
  have hsleeps : (cancelAux behav R B jit 1 (R + 1)).sleeps =
      (List.range ((cancelAux behav R B jit 1 (R + 1)).calls - 1)).map
        (fun m => B * 2 ^ m + jit (m + 1)) := by
    rw [h5]
    apply List.map_congr_left
    intro m _
    have e1 : 1 - 1 + m = m := by omega
    have e2 : 1 + m = m + 1 := by omega
    rw [e1, e2]
  obtain ⟨g1, g2, g3⟩ := getAux_toCancel behav R B jit 1 (R + 1)
  refine ⟨by omega, by omega, by omega, ?_, hsleeps, ?_, ?_, ?_, g2, g3, ?_⟩
  · intro htr
    obtain ⟨t1, t2⟩ := cancelAux_transient behav R B jit htr (R + 1) 1 (by omega) (by omega)
    exact ⟨t1, by omega⟩
  · intro hj m hm
    have hlen : (cancelAux behav R B jit 1 (R + 1)).sleeps.length =
        (cancelAux behav R B jit 1 (R + 1)).calls - 1 := by
      rw [hsleeps]; simp
    rw [hlen] at hm
    have hval : (cancelAux behav R B jit 1 (R + 1)).sleeps.getD m 0 =
        B * 2 ^ m + jit (m + 1) := by
      rw [hsleeps]; exact getD_map_range _ _ _ hm
    rw [hval]
    exact ⟨le_add_of_nonneg_right (hj (m + 1)).1, by linarith [(hj (m + 1)).2]⟩
  · intro hB m
    have h2pow : (2 : ℚ) ^ m ≤ 2 ^ (m + 1) := by
      apply pow_le_pow_right₀ (by norm_num) (by omega)
    exact mul_le_mul_of_nonneg_left h2pow hB
  · rw [revokeAux_eq_cancelAux]
  · show (getAux behav R B jit 1 (R + 1)).result.toCancel.attempts =
      (cancelAux behav R B jit 1 (R + 1)).result.attempts
    rw [g1]

/-- C4: a remote call that raises a non-HttpError exception makes each
wrapper stop at once and return a failure with error type `exception`,
no HTTP status, the current attempt count, and no further calls; the
exception is converted into a result, never propagated. -/
theorem c4_local_exception (behav : Nat → CallBehavior) (R : Nat) (B J : ℚ)
    (jit : Nat → ℚ) (K : Nat) (msg : String)
    (hK1 : 1 ≤ K) (hK2 : K ≤ R + 1)
    (htr : ∀ n, 1 ≤ n → n < K → transientB (behav n) = true)
    (hb : behav K = .raiseExc msg) :
    (cancel_with_retries behav R B J jit).result =
      ⟨"failure", K, none, some msg, some "exception"⟩ ∧
    (cancel_with_retries behav R B J jit).calls = K ∧
    (revoke_prorated_with_retries behav R B J jit).result =
      ⟨"failure", K, none, some msg, some "exception"⟩ ∧
    (revoke_prorated_with_retries behav R B J jit).calls = K ∧
    (get_with_retries behav R B J jit).result =
      ⟨"failure", K, none, some msg, some "exception", none⟩ ∧
    (get_with_retries behav R B J jit).calls = K := by
  simp only [cancel_with_retries, get_with_retries, revoke_prorated_with_retries]
  obtain ⟨e1, e2⟩ :=
    cancelAux_exc behav R B jit K msg hb (R + 1) 1 (by omega) (by omega) (by omega)
      hK1 hK2 (fun n h1 h2 => htr n h1 h2)
  obtain ⟨g1, g2, _⟩ := getAux_toCancel behav R B jit 1 (R + 1)
  have hpay := getAux_payload behav R B jit 1 (R + 1)
  rw [e1] at g1 hpay
  have hfs : ("failure" = "success") = False := by simp
  simp only [hfs, if_false] at g1
  have hpayload : (getAux behav R B jit 1 (R + 1)).result.payload = none := by
    rcases hpay with h | h
    · simp at h
    · exact h
  have hget := GetResult.eq_of_toCancel g1 hpayload
  refine ⟨e1, by omega, ?_, ?_, hget, by omega⟩
  · rw [revokeAux_eq_cancelAux]; exact e1
  · rw [revokeAux_eq_cancelAux]; omega

/-- C10: every invocation of the three retry wrappers returns from
inside the loop: the fall-through result after the loop (error type
`"unknown"`, attempts `retries + 1`, zero calls) is never produced. -/
theorem c10_fallthrough_unreachable (behav : Nat → CallBehavior) (R : Nat)
    (B J : ℚ) (jit : Nat → ℚ) :
    ((cancel_with_retries behav R B J jit).result.error_type == some "unknown") = false ∧
    1 ≤ (cancel_with_retries behav R B J jit).calls ∧
    ((revoke_prorated_with_retries behav R B J jit).result.error_type == some "unknown") = false ∧
    1 ≤ (revoke_prorated_with_retries behav R B J jit).calls ∧
    ((get_with_retries behav R B J jit).result.error_type == some "unknown") = false ∧
    1 ≤ (get_with_retries behav R B J jit).calls := by
  simp only [cancel_with_retries, get_with_retries, revoke_prorated_with_retries]
  obtain ⟨h1, h2, h3, h4, h5⟩ :=
    cancelAux_spec behav R B jit (R + 1) 1 (by omega) (by omega) (by omega)
  obtain ⟨g1, g2, _⟩ := getAux_toCancel behav R B jit 1 (R + 1)
  have hgete : (getAux behav R B jit 1 (R + 1)).result.error_type =
      (cancelAux behav R B jit 1 (R + 1)).result.error_type := by
    show (getAux behav R B jit 1 (R + 1)).result.toCancel.error_type =
      (cancelAux behav R B jit 1 (R + 1)).result.error_type
    rw [g1]
  refine ⟨beq_eq_false_iff_ne.mpr h4, by omega, ?_, ?_, ?_, by omega⟩
  · rw [revokeAux_eq_cancelAux]; exact beq_eq_false_iff_ne.mpr h4
  · rw [revokeAux_eq_cancelAux]; omega
  · rw [hgete]; exact beq_eq_false_iff_ne.mpr h4

/-! ### Structural lemmas about the loop body -/
@[simp] theorem getBucket_processed (g : GetResult) (t : Totals) :
    (getBucket g t).processed = t.processed := by
  unfold getBucket; split_ifs <;> rfl

@[simp] theorem getBucket_skipped (g : GetResult) (t : Totals) :
    (getBucket g t).skipped = t.skipped := by
  unfold getBucket; split_ifs <;> rfl

@[simp] theorem cancelBucket_processed (r : CancelResult) (t : Totals) :
    (cancelBucket r t).processed = t.processed := by
  unfold cancelBucket; split_ifs <;> rfl

@[simp] theorem cancelBucket_skipped (r : CancelResult) (t : Totals) :
    (cancelBucket r t).skipped = t.skipped := by
  unfold cancelBucket; split_ifs <;> rfl

@[simp] theorem checkpointStep_totals (args : Args) (token : String) (succ : Bool)
    (st : RunState) : (checkpointStep args token succ st).totals = st.totals := by
  unfold checkpointStep; split_ifs <;> rfl

@[simp] theorem checkpointStep_audit (args : Args) (token : String) (succ : Bool)
    (st : RunState) : (checkpointStep args token succ st).audit = st.audit := by
  unfold checkpointStep; split_ifs <;> rfl

@[simp] theorem checkpointStep_remote (args : Args) (token : String) (succ : Bool)
    (st : RunState) : (checkpointStep args token succ st).remoteTokens = st.remoteTokens := by
  unfold checkpointStep; split_ifs <;> rfl

@[simp] theorem checkpointStep_elig (args : Args) (token : String) (succ : Bool)
    (st : RunState) : (checkpointStep args token succ st).eligibleRows = st.eligibleRows := by
  unfold checkpointStep; split_ifs <;> rfl

@[simp] theorem checkpointStep_inelig (args : Args) (token : String) (succ : Bool)
    (st : RunState) : (checkpointStep args token succ st).ineligibleRows = st.ineligibleRows := by
  unfold checkpointStep; split_ifs <;> rfl

@[simp] theorem checkpointStep_considered (args : Args) (token : String) (succ : Bool)
    (st : RunState) : (checkpointStep args token succ st).considered = st.considered := by
  unfold checkpointStep; split_ifs <;> rfl

theorem checkpointStep_dry (args : Args) (token : String) (succ : Bool) (st : RunState)
    (h : args.dry_run = true) : checkpointStep args token succ st = st := by
  unfold checkpointStep; rw [if_pos h]

theorem checkpointStep_sets (args : Args) (token : String) (succ : Bool) (st : RunState) :
    ((checkpointStep args token succ st).processedTokens = st.processedTokens ∧
      (checkpointStep args token succ st).ckptSuccess = st.ckptSuccess) ∨
    ((checkpointStep args token succ st).processedTokens = st.processedTokens ++ [token] ∧
      (checkpointStep args token succ st).ckptSuccess = st.ckptSuccess ++ [token]) := by
  unfold checkpointStep
  split_ifs <;> first | exact Or.inl ⟨rfl, rfl⟩ | exact Or.inr ⟨rfl, rfl⟩

theorem checkpointStep_failed (args : Args) (token : String) (succ : Bool) (st : RunState) :
    (checkpointStep args token succ st).ckptFailed = st.ckptFailed ∨
    (checkpointStep args token succ st).ckptFailed = st.ckptFailed ++ [token] := by
  unfold checkpointStep
  split_ifs <;> first | exact Or.inl rfl | exact Or.inr rfl

@[simp] theorem validateBranch_totals (token pkg : String) (product order_id : Option String)
    (idx : Nat) (g : GetResult) (st : RunState) :
    (validateBranch token pkg product order_id idx g st).totals = getBucket g st.totals := by
  unfold validateBranch; split_ifs <;> rfl

@[simp] theorem validateBranch_pT (token pkg : String) (product order_id : Option String)
    (idx : Nat) (g : GetResult) (st : RunState) :
    (validateBranch token pkg product order_id idx g st).processedTokens =
      st.processedTokens := by
  unfold validateBranch; split_ifs <;> rfl

@[simp] theorem validateBranch_remote (token pkg : String) (product order_id : Option String)
    (idx : Nat) (g : GetResult) (st : RunState) :
    (validateBranch token pkg product order_id idx g st).remoteTokens = st.remoteTokens := by
  unfold validateBranch; split_ifs <;> rfl

@[simp] theorem validateBranch_cS (token pkg : String) (product order_id : Option String)
    (idx : Nat) (g : GetResult) (st : RunState) :
    (validateBranch token pkg product order_id idx g st).ckptSuccess = st.ckptSuccess := by
  unfold validateBranch; split_ifs <;> rfl

@[simp] theorem validateBranch_cF (token pkg : String) (product order_id : Option String)
    (idx : Nat) (g : GetResult) (st : RunState) :
    (validateBranch token pkg product order_id idx g st).ckptFailed = st.ckptFailed := by
  unfold validateBranch; split_ifs <;> rfl

@[simp] theorem validateBranch_considered (token pkg : String) (product order_id : Option String)
    (idx : Nat) (g : GetResult) (st : RunState) :
    (validateBranch token pkg product order_id idx g st).considered = st.considered := by
  unfold validateBranch; split_ifs <;> rfl

@[simp] theorem validateBranch_audit (token pkg : String) (product order_id : Option String)
    (idx : Nat) (g : GetResult) (st : RunState) :
    (validateBranch token pkg product order_id idx g st).audit = st.audit ++
      [⟨token, g.status, g.attempts, g.http_status, g.error_type, g.message, idx⟩] := by
  unfold validateBranch; split_ifs <;> rfl

theorem validateBranch_routes (token pkg : String) (product order_id : Option String)
    (idx : Nat) (g : GetResult) (st : RunState) :
    (validateBranch token pkg product order_id idx g st).eligibleRows = st.eligibleRows ++
      (if isEligible g then
        [⟨token, pkg, product, order_id, (effPayload g).subscriptionState,
          extractExpiry (effPayload g), extractAutoRenew (effPayload g),
          extractLatestOrder (effPayload g)⟩] else []) ∧
    (validateBranch token pkg product order_id idx g st).ineligibleRows = st.ineligibleRows ++
      (if isEligible g then [] else
        [⟨token, pkg, product, order_id, (effPayload g).subscriptionState,
          extractExpiry (effPayload g), extractAutoRenew (effPayload g),
          extractLatestOrder (effPayload g),
          g.status, g.http_status, g.error_type, g.message⟩]) := by
  unfold validateBranch
  by_cases h : isEligible g = true
  · rw [if_pos h]
    exact ⟨by simp [h], by simp [h]⟩
  · rw [if_neg h]
    exact ⟨by simp [h], by simp [h]⟩

@[simp] theorem cancelBranch_totals (token : String) (idx : Nat) (r : CancelResult)
    (st : RunState) : (cancelBranch token idx r st).totals = cancelBucket r st.totals := rfl

@[simp] theorem cancelBranch_pT (token : String) (idx : Nat) (r : CancelResult)
    (st : RunState) : (cancelBranch token idx r st).processedTokens = st.processedTokens := rfl

@[simp] theorem cancelBranch_remote (token : String) (idx : Nat) (r : CancelResult)
    (st : RunState) : (cancelBranch token idx r st).remoteTokens = st.remoteTokens := rfl

@[simp] theorem cancelBranch_cS (token : String) (idx : Nat) (r : CancelResult)
    (st : RunState) : (cancelBranch token idx r st).ckptSuccess = st.ckptSuccess := rfl

@[simp] theorem cancelBranch_cF (token : String) (idx : Nat) (r : CancelResult)
    (st : RunState) : (cancelBranch token idx r st).ckptFailed = st.ckptFailed := rfl

@[simp] theorem cancelBranch_considered (token : String) (idx : Nat) (r : CancelResult)
    (st : RunState) : (cancelBranch token idx r st).considered = st.considered := rfl

@[simp] theorem cancelBranch_elig (token : String) (idx : Nat) (r : CancelResult)
    (st : RunState) : (cancelBranch token idx r st).eligibleRows = st.eligibleRows := rfl

@[simp] theorem cancelBranch_inelig (token : String) (idx : Nat) (r : CancelResult)
    (st : RunState) : (cancelBranch token idx r st).ineligibleRows = st.ineligibleRows := rfl

@[simp] theorem cancelBranch_audit (token : String) (idx : Nat) (r : CancelResult)
    (st : RunState) : (cancelBranch token idx r st).audit = st.audit ++
      [⟨token, r.status, r.attempts, r.http_status, r.error_type, r.message, idx⟩] := rfl

@[simp] theorem addSkip_totals_skipped (st : RunState) :
    (addSkip st).totals.skipped = st.totals.skipped + 1 := rfl

@[simp] theorem addSkip_totals_processed (st : RunState) :
    (addSkip st).totals.processed = st.totals.processed := rfl

@[simp] theorem addSkip_pT (st : RunState) : (addSkip st).processedTokens = st.processedTokens := rfl

@[simp] theorem addSkip_remote (st : RunState) : (addSkip st).remoteTokens = st.remoteTokens := rfl

@[simp] theorem addSkip_audit (st : RunState) : (addSkip st).audit = st.audit := rfl

@[simp] theorem addSkip_cS (st : RunState) : (addSkip st).ckptSuccess = st.ckptSuccess := rfl

@[simp] theorem addSkip_cF (st : RunState) : (addSkip st).ckptFailed = st.ckptFailed := rfl

@[simp] theorem addSkip_considered (st : RunState) : (addSkip st).considered = st.considered := rfl

/-- A row meeting one of the four skip conditions leaves everything but
the skipped and considered counters unchanged. -/
theorem processRow_skipped (args : Args) (o : Nat → Nat → CallBehavior)
    (j : Nat → Nat → ℚ) (row : Row) (idx : Nat) (st : RunState)
    (h : skipReason args row st.processedTokens = true) :
    processRow args o j row idx st = addSkip { st with considered := st.considered + 1 } := by
  simp only [skipReason, Bool.or_eq_true, beq_iff_eq, decide_eq_true_eq] at h
  by_cases h1 : pyStrip (row.token.getD "") = ""
  · simp [processRow, h1]
  · by_cases h2 : pyStrip (row.token.getD "") ∈ st.processedTokens
    · simp [processRow, h1, h2]
    · cases heq : pick_package row.package args.packageFieldResolved args.package_name with
      | none => simp [processRow, h1, h2, heq]
      | some pkg =>
        rw [heq] at h
        simp only [Bool.or_eq_true, beq_iff_eq] at h
        rcases h with ((h | h) | (h | h))
        · exact absurd h h1
        · exact absurd h h2
        · simp [processRow, h1, h2, heq, h]
        · by_cases h3 : pkg = ""
          · simp [processRow, h1, h2, heq, h3]
          · simp [processRow, h1, h2, heq, h3, h]

/-- A row whose stripped token is already in the in-memory success set is
always skipped. -/
theorem processRow_mem (args : Args) (o : Nat → Nat → CallBehavior)
    (j : Nat → Nat → ℚ) (row : Row) (idx : Nat) (st : RunState)
    (h : pyStrip (row.token.getD "") ∈ st.processedTokens) :
    processRow args o j row idx st = addSkip { st with considered := st.considered + 1 } :=
  processRow_skipped args o j row idx st (by simp [skipReason, h])

/-- A row meeting no skip condition is processed: the processed counter,
the considered counter and the audit log each grow by one and the
skipped counter is unchanged. -/
theorem processRow_act (args : Args) (o : Nat → Nat → CallBehavior)
    (j : Nat → Nat → ℚ) (row : Row) (idx : Nat) (st : RunState)
    (h : skipReason args row st.processedTokens = false) :
    (processRow args o j row idx st).totals.processed = st.totals.processed + 1 ∧
    (processRow args o j row idx st).totals.skipped = st.totals.skipped ∧
    (processRow args o j row idx st).considered = st.considered + 1 ∧
    (processRow args o j row idx st).audit.length = st.audit.length + 1 := by
  simp only [skipReason, Bool.or_eq_false_iff, beq_eq_false_iff_ne, ne_eq,
    decide_eq_false_iff_not] at h
  obtain ⟨⟨h1, h2⟩, h3⟩ := h
  cases heq : pick_package row.package args.packageFieldResolved args.package_name with
  | none => rw [heq] at h3; simp at h3
  | some pkg =>
    rw [heq] at h3
    simp only [Bool.or_eq_false_iff, beq_eq_false_iff_ne, ne_eq] at h3
    obtain ⟨h4, h5⟩ := h3
    by_cases hm : args.mode = Mode.validate
    · by_cases hd : args.dry_run
      · simp [processRow, heq, h1, h2, h4, h5, hm, hd]
      · simp [processRow, heq, h1, h2, h4, h5, hm, hd]
    · by_cases hd : args.dry_run
      · simp [processRow, heq, h1, h2, h4, h5, hm, hd]
      · by_cases hr : args.mode = Mode.revokeProrated
        · simp [processRow, heq, h1, h2, h4, h5, hm, hd, hr]
        · simp [processRow, heq, h1, h2, h4, h5, hm, hd, hr]

theorem checkpointStep_pT_eq (args : Args) (token : String) (succ : Bool) (st : RunState) :
    (checkpointStep args token succ st).processedTokens = st.processedTokens ++
      (if args.dry_run = false ∧ succ = true ∧ args.hasSuccessCkpt = true
       then [token] else []) := by
  unfold checkpointStep
  by_cases hd : args.dry_run
  · simp [hd]
  · by_cases hs : succ
    · by_cases hck : args.hasSuccessCkpt
      · simp [hd, hs, hck]
      · simp [hd, hs, hck]
    · by_cases hf : args.hasFailedCkpt
      · simp [hd, hs, hf]
      · simp [hd, hs, hf]

theorem checkpointStep_cS_eq (args : Args) (token : String) (succ : Bool) (st : RunState) :
    (checkpointStep args token succ st).ckptSuccess = st.ckptSuccess ++
      (if args.dry_run = false ∧ succ = true ∧ args.hasSuccessCkpt = true
       then [token] else []) := by
  unfold checkpointStep
  by_cases hd : args.dry_run
  · simp [hd]
  · by_cases hs : succ
    · by_cases hck : args.hasSuccessCkpt
      · simp [hd, hs, hck]
      · simp [hd, hs, hck]
    · by_cases hf : args.hasFailedCkpt
      · simp [hd, hs, hf]
      · simp [hd, hs, hf]

theorem mode_rv_ne_validate : (Mode.revokeProrated = Mode.validate) = False :=
  eq_false (by decide)

/-- How the in-memory success set and the success-checkpoint appends can
change on one row: either both are untouched, or the fresh,
non-empty, stripped token is appended to both. -/
theorem processRow_sets (args : Args) (o : Nat → Nat → CallBehavior)
    (j : Nat → Nat → ℚ) (row : Row) (idx : Nat) (st : RunState) :
    ((processRow args o j row idx st).processedTokens = st.processedTokens ∧
      (processRow args o j row idx st).ckptSuccess = st.ckptSuccess) ∨
    (pyStrip (row.token.getD "") ∉ st.processedTokens ∧
      pyStrip (row.token.getD "") ≠ "" ∧
      (processRow args o j row idx st).processedTokens =
        st.processedTokens ++ [pyStrip (row.token.getD "")] ∧
      (processRow args o j row idx st).ckptSuccess =
        st.ckptSuccess ++ [pyStrip (row.token.getD "")]) := by
  by_cases hs : skipReason args row st.processedTokens = true
  · rw [processRow_skipped args o j row idx st hs]; left; simp
  · have hs2 : skipReason args row st.processedTokens = false := by simpa using hs
    have hsr := hs2
    simp only [skipReason, Bool.or_eq_false_iff, beq_eq_false_iff_ne, ne_eq,
      decide_eq_false_iff_not] at hsr
    obtain ⟨⟨h1, h2⟩, h3⟩ := hsr
    cases heq : pick_package row.package args.packageFieldResolved args.package_name with
    | none => rw [heq] at h3; simp at h3
    | some pkg =>
      rw [heq] at h3
      simp only [Bool.or_eq_false_iff, beq_eq_false_iff_ne, ne_eq] at h3
      obtain ⟨h4, h5⟩ := h3
      by_cases hm : args.mode = Mode.validate
      · by_cases hd : args.dry_run
        · left
          constructor
          · simp [processRow, heq, h1, h2, h4, h5, hm, hd, checkpointStep_dry]
          · simp [processRow, heq, h1, h2, h4, h5, hm, hd, checkpointStep_dry]
        · simp only [processRow, heq, h1, h2, h4, h5, hm, hd, ite_true, ite_false,
            if_true, if_false, Bool.false_eq_true, checkpointStep_pT_eq,
            checkpointStep_cS_eq, validateBranch_pT, validateBranch_cS]
          split
          · next => right; exact ⟨by simp [h2], by simp [h1], by first | rfl | simp, by first | rfl | simp⟩
          · next => left; exact ⟨by first | rfl | simp, by first | rfl | simp⟩
      · by_cases hd : args.dry_run
        · left
          constructor
          · simp [processRow, heq, h1, h2, h4, h5, hm, hd, checkpointStep_dry]
          · simp [processRow, heq, h1, h2, h4, h5, hm, hd, checkpointStep_dry]
        · by_cases hr : args.mode = Mode.revokeProrated
          · simp only [processRow, heq, h1, h2, h4, h5, hm, hd, hr, mode_rv_ne_validate,
              eq_self_iff_true, ite_true, ite_false,
              if_true, if_false, Bool.false_eq_true, checkpointStep_pT_eq,
              checkpointStep_cS_eq, cancelBranch_pT, cancelBranch_cS]
            split
            · next => right; exact ⟨by simp [h2], by simp [h1], by first | rfl | simp, by first | rfl | simp⟩
            · next => left; exact ⟨by first | rfl | simp, by first | rfl | simp⟩
          · simp only [processRow, heq, h1, h2, h4, h5, hm, hd, hr, ite_true, ite_false,
              if_true, if_false, Bool.false_eq_true, checkpointStep_pT_eq,
              checkpointStep_cS_eq, cancelBranch_pT, cancelBranch_cS]
            split
            · next => right; exact ⟨by simp [h2], by simp [h1], by first | rfl | simp, by first | rfl | simp⟩
            · next => left; exact ⟨by first | rfl | simp, by first | rfl | simp⟩

/-- In dry-run mode a row never touches the remote side, the checkpoint
files or the in-memory set, and a processed row writes exactly one audit
record with status `dry_run` and zero attempts. -/
theorem processRow_dry (args : Args) (o : Nat → Nat → CallBehavior)
    (j : Nat → Nat → ℚ) (row : Row) (idx : Nat) (st : RunState)
    (hd : args.dry_run = true) :
    (processRow args o j row idx st).remoteTokens = st.remoteTokens ∧
    (processRow args o j row idx st).ckptSuccess = st.ckptSuccess ∧
    (processRow args o j row idx st).ckptFailed = st.ckptFailed ∧
    (processRow args o j row idx st).processedTokens = st.processedTokens ∧
    (processRow args o j row idx st).audit = st.audit ++
      (if skipReason args row st.processedTokens then []
       else [⟨pyStrip (row.token.getD ""), "dry_run", 0, none, none, none, idx⟩]) := by
  by_cases hs : skipReason args row st.processedTokens = true
  · rw [processRow_skipped args o j row idx st hs]
    simp [hs]
  · have hs2 : skipReason args row st.processedTokens = false := by
      simpa using hs
    have hsr := hs2
    simp only [skipReason, Bool.or_eq_false_iff, beq_eq_false_iff_ne, ne_eq,
      decide_eq_false_iff_not] at hsr
    obtain ⟨⟨h1, h2⟩, h3⟩ := hsr
    cases heq : pick_package row.package args.packageFieldResolved args.package_name with
    | none => rw [heq] at h3; simp at h3
    | some pkg =>
      rw [heq] at h3
      simp only [Bool.or_eq_false_iff, beq_eq_false_iff_ne, ne_eq] at h3
      obtain ⟨h4, h5⟩ := h3
      by_cases hm : args.mode = Mode.validate
      · simp [processRow, heq, h1, h2, h4, h5, hm, hd, hs2, checkpointStep_dry]
      · simp [processRow, heq, h1, h2, h4, h5, hm, hd, hs2, checkpointStep_dry]

/-- A remote wrapper is invoked for a row only when its token passed the
skip checks; the invoked token is recorded. -/
theorem processRow_remote (args : Args) (o : Nat → Nat → CallBehavior)
    (j : Nat → Nat → ℚ) (row : Row) (idx : Nat) (st : RunState) :
    (processRow args o j row idx st).remoteTokens = st.remoteTokens ∨
    (pyStrip (row.token.getD "") ∉ st.processedTokens ∧
      (processRow args o j row idx st).remoteTokens =
        st.remoteTokens ++ [pyStrip (row.token.getD "")]) := by
  by_cases hs : skipReason args row st.processedTokens = true
  · rw [processRow_skipped args o j row idx st hs]; left; simp
  · have hs2 : skipReason args row st.processedTokens = false := by simpa using hs
    have hsr := hs2
    simp only [skipReason, Bool.or_eq_false_iff, beq_eq_false_iff_ne, ne_eq,
      decide_eq_false_iff_not] at hsr
    obtain ⟨⟨h1, h2⟩, h3⟩ := hsr
    cases heq : pick_package row.package args.packageFieldResolved args.package_name with
    | none => rw [heq] at h3; simp at h3
    | some pkg =>
      rw [heq] at h3
      simp only [Bool.or_eq_false_iff, beq_eq_false_iff_ne, ne_eq] at h3
      obtain ⟨h4, h5⟩ := h3
      by_cases hm : args.mode = Mode.validate
      · by_cases hd : args.dry_run
        · left; simp [processRow, heq, h1, h2, h4, h5, hm, hd]
        · right; exact ⟨h2, by simp [processRow, heq, h1, h2, h4, h5, hm, hd]⟩
      · by_cases hd : args.dry_run
        · left; simp [processRow, heq, h1, h2, h4, h5, hm, hd]
        · by_cases hr : args.mode = Mode.revokeProrated
          · right; exact ⟨h2, by simp [processRow, heq, h1, h2, h4, h5, hm, hd, hr]⟩
          · right; exact ⟨h2, by simp [processRow, heq, h1, h2, h4, h5, hm, hd, hr]⟩

/-- Each considered row increments exactly one of processed and skipped,
and the considered counter. -/
theorem processRow_sum (args : Args) (o : Nat → Nat → CallBehavior)
    (j : Nat → Nat → ℚ) (row : Row) (idx : Nat) (st : RunState) :
    (processRow args o j row idx st).totals.processed +
      (processRow args o j row idx st).totals.skipped =
      st.totals.processed + st.totals.skipped + 1 ∧
    (processRow args o j row idx st).considered = st.considered + 1 := by
  by_cases hs : skipReason args row st.processedTokens = true
  · rw [processRow_skipped args o j row idx st hs]
    constructor
    · simp
      omega
    · simp
  · obtain ⟨a1, a2, a3, _⟩ := processRow_act args o j row idx st (by simpa using hs)
    exact ⟨by omega, a3⟩

/-- Loop invariant: the increase of processed plus skipped equals the
increase of the considered counter. -/
theorem runLoop_count (args : Args) (o : Nat → Nat → CallBehavior) (j : Nat → Nat → ℚ) :
    ∀ (rows : List Row) (idx : Nat) (st : RunState),
    (runLoop args o j rows idx st).totals.processed +
      (runLoop args o j rows idx st).totals.skipped + st.considered =
    st.totals.processed + st.totals.skipped + (runLoop args o j rows idx st).considered := by
  intro rows
  induction rows with
  | nil => intro idx st; simp [runLoop]
  | cons row rest ih =>
    intro idx st
    rw [runLoop]
    by_cases hb : maxRowsBreak args.max_rows st.totals.processed = true
    · rw [if_pos hb]
    · rw [if_neg hb]
      have hstep := processRow_sum args o j row idx st
      have hrec := ih (idx + 1) (processRow args o j row idx st)
      omega

/-- A token of the in-memory set is never handed to a remote wrapper at
any later point of the loop. -/
theorem runLoop_no_remote (args : Args) (o : Nat → Nat → CallBehavior) (j : Nat → Nat → ℚ) :
    ∀ (rows : List Row) (idx : Nat) (st : RunState) (t : String),
    t ∈ st.processedTokens → t ∉ st.remoteTokens →
    t ∈ (runLoop args o j rows idx st).processedTokens ∧
      t ∉ (runLoop args o j rows idx st).remoteTokens := by
  intro rows
  induction rows with
  | nil => intro idx st t h1 h2; exact ⟨h1, h2⟩
  | cons row rest ih =>
    intro idx st t h1 h2
    rw [runLoop]
    by_cases hb : maxRowsBreak args.max_rows st.totals.processed = true
    · rw [if_pos hb]; exact ⟨h1, h2⟩
    · rw [if_neg hb]
      apply ih
      · rcases processRow_sets args o j row idx st with ⟨ha, _⟩ | ⟨_, _, ha, _⟩
        · rw [ha]; exact h1
        · rw [ha]; exact List.mem_append_left _ h1
      · rcases processRow_remote args o j row idx st with ha | ⟨hmem, ha⟩
        · rw [ha]; exact h2
        · rw [ha]
          intro hcontra
          rcases List.mem_append.mp hcontra with hc | hc
          · exact h2 hc
          · simp only [List.mem_singleton] at hc
            exact hmem (hc ▸ h1)

/-- Success-checkpoint appends only grow during the loop. -/
theorem runLoop_cS_mono (args : Args) (o : Nat → Nat → CallBehavior) (j : Nat → Nat → ℚ) :
    ∀ (rows : List Row) (idx : Nat) (st : RunState) (t : String),
    t ∈ st.ckptSuccess → t ∈ (runLoop args o j rows idx st).ckptSuccess := by
  intro rows
  induction rows with
  | nil => intro idx st t h; exact h
  | cons row rest ih =>
    intro idx st t h
    rw [runLoop]
    by_cases hb : maxRowsBreak args.max_rows st.totals.processed = true
    · rw [if_pos hb]; exact h
    · rw [if_neg hb]
      apply ih
      rcases processRow_sets args o j row idx st with ⟨_, ha⟩ | ⟨_, _, _, ha⟩
      · rw [ha]; exact h
      · rw [ha]; exact List.mem_append_left _ h

/-- Every member of the in-memory set was either loaded at start or has
been appended to the success checkpoint during this run. -/
theorem runLoop_prov (args : Args) (o : Nat → Nat → CallBehavior) (j : Nat → Nat → ℚ) :
    ∀ (rows : List Row) (idx : Nat) (st : RunState) (t : String),
    t ∈ (runLoop args o j rows idx st).processedTokens →
    t ∈ st.processedTokens ∨ t ∈ (runLoop args o j rows idx st).ckptSuccess := by
  intro rows
  induction rows with
  | nil => intro idx st t h; exact Or.inl h
  | cons row rest ih =>
    intro idx st t h
    rw [runLoop] at h ⊢
    by_cases hb : maxRowsBreak args.max_rows st.totals.processed = true
    · rw [if_pos hb] at h ⊢; exact Or.inl h
    · rw [if_neg hb] at h ⊢
      rcases ih (idx + 1) (processRow args o j row idx st) t h with hin | hcs
      · rcases processRow_sets args o j row idx st with ⟨ha, _⟩ | ⟨_, _, ha, hcS⟩
        · rw [ha] at hin; exact Or.inl hin
        · rw [ha] at hin
          rcases List.mem_append.mp hin with hc | hc
          · exact Or.inl hc
          · simp only [List.mem_singleton] at hc
            right
            apply runLoop_cS_mono
            rw [hcS, hc]
            exact List.mem_append_right _ (by simp)
      · exact Or.inr hcs

/-- Every token appended to the success checkpoint is a stripped,
non-empty string (so re-loading the file keeps it verbatim). -/
theorem runLoop_cS_stripped (args : Args) (o : Nat → Nat → CallBehavior) (j : Nat → Nat → ℚ) :
    ∀ (rows : List Row) (idx : Nat) (st : RunState) (t : String),
    t ∈ (runLoop args o j rows idx st).ckptSuccess →
    t ∈ st.ckptSuccess ∨ (pyStrip t = t ∧ t ≠ "") := by
  intro rows
  induction rows with
  | nil => intro idx st t h; exact Or.inl h
  | cons row rest ih =>
    intro idx st t h
    rw [runLoop] at h
    by_cases hb : maxRowsBreak args.max_rows st.totals.processed = true
    · rw [if_pos hb] at h; exact Or.inl h
    · rw [if_neg hb] at h
      rcases ih (idx + 1) (processRow args o j row idx st) t h with hin | hp
      · rcases processRow_sets args o j row idx st with ⟨_, ha⟩ | ⟨_, hne, _, ha⟩
        · rw [ha] at hin; exact Or.inl hin
        · rw [ha] at hin
          rcases List.mem_append.mp hin with hc | hc
          · exact Or.inl hc
          · simp only [List.mem_singleton] at hc
            subst hc
            exact Or.inr ⟨pyStrip_idem _, hne⟩
      · exact Or.inr hp

/-- In dry-run mode the loop makes no remote invocation, appends to no
checkpoint file, grows no in-memory set, and writes one `dry_run` audit
record per processed row. -/
theorem runLoop_dry (args : Args) (o : Nat → Nat → CallBehavior) (j : Nat → Nat → ℚ)
    (hd : args.dry_run = true) :
    ∀ (rows : List Row) (idx : Nat) (st : RunState),
    (runLoop args o j rows idx st).remoteTokens = st.remoteTokens ∧
    (runLoop args o j rows idx st).ckptSuccess = st.ckptSuccess ∧
    (runLoop args o j rows idx st).ckptFailed = st.ckptFailed ∧
    (runLoop args o j rows idx st).processedTokens = st.processedTokens ∧
    (runLoop args o j rows idx st).audit.length + st.totals.processed =
      st.audit.length + (runLoop args o j rows idx st).totals.processed ∧
    (∀ r ∈ (runLoop args o j rows idx st).audit,
      r ∈ st.audit ∨ (r.status = "dry_run" ∧ r.attempts = 0)) := by
  intro rows
  induction rows with
  | nil =>
    intro idx st
    exact ⟨rfl, rfl, rfl, rfl, rfl, fun r hr => Or.inl hr⟩
  | cons row rest ih =>
    intro idx st
    rw [runLoop]
    by_cases hb : maxRowsBreak args.max_rows st.totals.processed = true
    · rw [if_pos hb]
      exact ⟨rfl, rfl, rfl, rfl, rfl, fun r hr => Or.inl hr⟩
    · rw [if_neg hb]
      obtain ⟨d1, d2, d3, d4, d5⟩ := processRow_dry args o j row idx st hd
      obtain ⟨i1, i2, i3, i4, i5, i6⟩ := ih (idx + 1) (processRow args o j row idx st)
      refine ⟨by rw [i1, d1], by rw [i2, d2], by rw [i3, d3], by rw [i4, d4], ?_, ?_⟩
      · have hstep := processRow_sum args o j row idx st
        have hlen : (processRow args o j row idx st).audit.length + st.totals.processed =
            st.audit.length + (processRow args o j row idx st).totals.processed := by
          by_cases hsk : skipReason args row st.processedTokens = true
          · rw [processRow_skipped args o j row idx st hsk]
            simp
          · obtain ⟨a1, _, _, a4⟩ := processRow_act args o j row idx st (by simpa using hsk)
            omega
        omega
      · intro r hr
        rcases i6 r hr with hin | hdry
        · rw [d5] at hin
          rcases List.mem_append.mp hin with hc | hc
          · exact Or.inl hc
          · by_cases hsk : skipReason args row st.processedTokens = true
            · rw [if_pos hsk] at hc; simp at hc
            · rw [if_neg hsk] at hc
              simp only [List.mem_singleton] at hc
              subst hc
              exact Or.inr ⟨rfl, rfl⟩
        · exact Or.inr hdry

/-- C1: with a success-checkpoint configured, a row whose token is in the
in-memory success set is never sent to the remote operation and counts as
skipped; a second run over the same input with the updated
success-checkpoint file makes zero remote calls for every token that was
recorded as successful in the first run; the failed-checkpoint file is
never read and so can never cause a skip, and the in-memory set only
ever holds loaded or newly-succeeded tokens. -/
theorem c1_checkpoint_idempotence (args : Args)
    (o1 o2 : Nat → Nat → CallBehavior) (j1 j2 : Nat → Nat → ℚ)
    (sf ff ff2 : Option (List String)) (rows : List Row)
    (hck : args.hasSuccessCkpt = true) (hdry : args.dry_run = false) :
    (∀ (row : Row) (idx : Nat) (st : RunState),
      pyStrip (row.token.getD "") ∈ st.processedTokens →
      processRow args o1 j1 row idx st =
        addSkip { st with considered := st.considered + 1 }) ∧
    (∀ t ∈ (runBatch args o1 j1 sf ff rows).ckptSuccess,
      t ∉ (runBatch args o2 j2
            (some ((sf.getD []) ++ (runBatch args o1 j1 sf ff rows).ckptSuccess))
            ff2 rows).remoteTokens) ∧
    (∀ ffA ffB : Option (List String),
      runBatch args o1 j1 sf ffA rows = runBatch args o1 j1 sf ffB rows) ∧
    (∀ t ∈ (runBatch args o1 j1 sf ff rows).processedTokens,
      t ∈ load_checkpoint sf ∨ t ∈ (runBatch args o1 j1 sf ff rows).ckptSuccess) := by
  refine ⟨fun row idx st h => processRow_mem args o1 j1 row idx st h, ?_, ?_, ?_⟩
  · intro t ht
    have hstr : pyStrip t = t ∧ t ≠ "" := by
      rcases runLoop_cS_stripped args o1 j1 rows 1
          (initState (load_checkpoint sf)) t ht with hin | hp
      · simp [initState] at hin
      · exact hp
    have hmem2 : t ∈ load_checkpoint
        (some ((sf.getD []) ++ (runBatch args o1 j1 sf ff rows).ckptSuccess)) := by
      unfold load_checkpoint
      apply List.mem_filter.mpr
      constructor
      · rw [← hstr.1]
        apply List.mem_map_of_mem
        exact List.mem_append_right _ ht
      · simpa using hstr.2
    have := runLoop_no_remote args o2 j2 rows 1
        (initState (load_checkpoint
          (some ((sf.getD []) ++ (runBatch args o1 j1 sf ff rows).ckptSuccess)))) t
        hmem2 (by simp [initState])
    exact this.2
  · intro ffA ffB; rfl
  · intro t ht
    have := runLoop_prov args o1 j1 rows 1 (initState (load_checkpoint sf)) t ht
    simpa [initState] using this

/-- C5: in dry-run mode the remote operation is never invoked, nothing
is ever appended to the success or failed checkpoint files, every audit
record written carries status `dry_run` with zero attempts, exactly one
audit record is written per processed row, and the in-memory
success-set skip check still applies. -/
theorem c5_dry_run_frame (args : Args) (o : Nat → Nat → CallBehavior)
    (j : Nat → Nat → ℚ) (sf ff : Option (List String)) (rows : List Row)
    (hd : args.dry_run = true) :
    (runBatch args o j sf ff rows).remoteTokens = [] ∧
    (runBatch args o j sf ff rows).ckptSuccess = [] ∧
    (runBatch args o j sf ff rows).ckptFailed = [] ∧
    (runBatch args o j sf ff rows).audit.length =
      (runBatch args o j sf ff rows).totals.processed ∧
    (∀ r ∈ (runBatch args o j sf ff rows).audit,
      r.status = "dry_run" ∧ r.attempts = 0) ∧
    (∀ (row : Row) (idx : Nat) (st : RunState),
      pyStrip (row.token.getD "") ∈ st.processedTokens →
      processRow args o j row idx st =
        addSkip { st with considered := st.considered + 1 }) := by
  obtain ⟨d1, d2, d3, _, d5, d6⟩ :=
    runLoop_dry args o j hd rows 1 (initState (load_checkpoint sf))
  refine ⟨d1, d2, d3, by simpa [initState] using d5, ?_,
    fun row idx st h => processRow_mem args o j row idx st h⟩
  intro r hr
  rcases d6 r hr with hin | hdry
  · simp [initState] at hin
  · exact hdry

/-- C7: every considered row increments exactly one of the processed and
skipped counters (skipped exactly when one of the four skip conditions
holds), and at the end of any run processed plus skipped equals the
number of rows considered before the max-rows break. -/
theorem c7_processed_plus_skipped (args : Args) (o : Nat → Nat → CallBehavior)
    (j : Nat → Nat → ℚ) (sf ff : Option (List String)) (rows : List Row) :
    (∀ (row : Row) (idx : Nat) (st : RunState),
      (processRow args o j row idx st).totals.skipped = st.totals.skipped +
        (if skipReason args row st.processedTokens then 1 else 0) ∧
      (processRow args o j row idx st).totals.processed = st.totals.processed +
        (if skipReason args row st.processedTokens then 0 else 1) ∧
      (processRow args o j row idx st).considered = st.considered + 1) ∧
    (runBatch args o j sf ff rows).totals.processed +
      (runBatch args o j sf ff rows).totals.skipped =
      (runBatch args o j sf ff rows).considered := by
  constructor
  · intro row idx st
    by_cases hs : skipReason args row st.processedTokens = true
    · rw [processRow_skipped args o j row idx st hs, if_pos hs, if_pos hs]
      exact ⟨by simp, by simp, by simp⟩
    · have hs2 : skipReason args row st.processedTokens = false := by simpa using hs
      obtain ⟨a1, a2, a3, _⟩ := processRow_act args o j row idx st hs2
      rw [hs2]
      exact ⟨by simpa using a2, by simpa using a1, a3⟩
  · have := runLoop_count args o j rows 1 (initState (load_checkpoint sf))
    simp only [initState, emptyTotals] at this
    simpa [runBatch, initState, emptyTotals] using this

/-- C8: a fetched row is eligible if and only if the field
`subscriptionState` lies in the fixed four-state set; an eligible row is
appended to the eligible export and every other row (expired states,
failed or dry-run fetches with no payload) is appended to the ineligible
export together with its status, HTTP status, error type and message. -/
theorem c8_validate_eligibility (token pkg : String) (product order_id : Option String)
    (idx : Nat) (g : GetResult) (st : RunState) :
    (isEligible g = true ↔
      ∃ s, (effPayload g).subscriptionState = some s ∧ s ∈ ELIGIBLE_STATES) ∧
    ("SUBSCRIPTION_STATE_ACTIVE" ∈ ELIGIBLE_STATES ∧
      "SUBSCRIPTION_STATE_IN_GRACE_PERIOD" ∈ ELIGIBLE_STATES ∧
      "SUBSCRIPTION_STATE_ON_HOLD" ∈ ELIGIBLE_STATES ∧
      "SUBSCRIPTION_STATE_PAUSED" ∈ ELIGIBLE_STATES ∧
      "SUBSCRIPTION_STATE_EXPIRED" ∉ ELIGIBLE_STATES) ∧
    (g.payload = none → isEligible g = false) ∧
    (isEligible g = true →
      (validateBranch token pkg product order_id idx g st).eligibleRows =
        st.eligibleRows ++
          [⟨token, pkg, product, order_id, (effPayload g).subscriptionState,
            extractExpiry (effPayload g), extractAutoRenew (effPayload g),
            extractLatestOrder (effPayload g)⟩] ∧
      (validateBranch token pkg product order_id idx g st).ineligibleRows =
        st.ineligibleRows) ∧
    (isEligible g = false →
      (validateBranch token pkg product order_id idx g st).eligibleRows =
        st.eligibleRows ∧
      (validateBranch token pkg product order_id idx g st).ineligibleRows =
        st.ineligibleRows ++
          [⟨token, pkg, product, order_id, (effPayload g).subscriptionState,
            extractExpiry (effPayload g), extractAutoRenew (effPayload g),
            extractLatestOrder (effPayload g),
            g.status, g.http_status, g.error_type, g.message⟩]) := by
  obtain ⟨r1, r2⟩ := validateBranch_routes token pkg product order_id idx g st
  refine ⟨?_, by decide, ?_, ?_, ?_⟩
  · unfold isEligible
    cases hs : (effPayload g).subscriptionState with
    | none => simp
    | some s =>
      show List.elem s ELIGIBLE_STATES = true ↔ _
      rw [List.elem_iff]
      constructor
      · intro h; exact ⟨s, rfl, by simpa using h⟩
      · rintro ⟨v, hv, hmem⟩
        cases hv
        simpa using hmem
  · intro hp
    unfold isEligible effPayload
    rw [hp]
    rfl
  · intro he
    rw [r1, r2, if_pos he, if_pos he]
    exact ⟨rfl, by simp⟩
  · intro he
    rw [r1, r2, if_neg (by simp [he]), if_neg (by simp [he])]
    exact ⟨by simp, rfl⟩

/-- C3 counterexample: the code has no single (status, message)
classifier as the claim describes. `classify_error` ignores the HTTP
status, so status 429 with an empty message classifies as `"other"`,
not as a transient kind; and the transient bucketing of the run loop by
status overrides the message rule `"not found"`, which the claim ranks
above the transient rule. -/
theorem c3_counterexample :
    classify_error "" = "other" ∧
    specClassify (some 429) "" = ErrorKind.transientServer ∧
    classify_error "not found" = "not_found" ∧
    specClassify (some 429) "not found" = ErrorKind.notFound ∧
    cancelBucket ⟨"failure", 4, some 429, some "not found", some "not_found"⟩ emptyTotals =
      { emptyTotals with failed_transient := 1 } := by
  exact ⟨rfl, rfl, rfl, rfl, rfl⟩

/-- C3 (amended): `classify_error` is a pure, deterministic,
case-insensitive function of the message text alone, applying rules in
priority order (already∧cancel, then "not found", then
"permission"/"forbidden", otherwise "other"); the HTTP status is not an
input, and transient-versus-permanent is decided separately in the run
loop by status membership in the retry set, with `already_cancelled`
taking precedence. -/
theorem c3_classifier_amended (m m2 : String) (r : CancelResult) (t : Totals) :
    (pyLower m = pyLower m2 → classify_error m = classify_error m2) ∧
    (strContains (pyLower m) "already" = true → strContains (pyLower m) "cancel" = true →
      classify_error m = "already_cancelled") ∧
    ((strContains (pyLower m) "already" = false ∨ strContains (pyLower m) "cancel" = false) →
      strContains (pyLower m) "not found" = true → classify_error m = "not_found") ∧
    ((strContains (pyLower m) "already" = false ∨ strContains (pyLower m) "cancel" = false) →
      strContains (pyLower m) "not found" = false →
      (strContains (pyLower m) "permission" = true ∨ strContains (pyLower m) "forbidden" = true) →
      classify_error m = "permission") ∧
    ((strContains (pyLower m) "already" = false ∨ strContains (pyLower m) "cancel" = false) →
      strContains (pyLower m) "not found" = false →
      strContains (pyLower m) "permission" = false → strContains (pyLower m) "forbidden" = false →
      classify_error m = "other") ∧
    (classify_error m = "already_cancelled" ∨ classify_error m = "not_found" ∨
      classify_error m = "permission" ∨ classify_error m = "other") ∧
    (r.status ≠ "success" → r.status ≠ "dry_run" →
      r.error_type = some "already_cancelled" →
      (cancelBucket r t).already_cancelled = t.already_cancelled + 1) ∧
    (r.status ≠ "success" → r.status ≠ "dry_run" →
      r.error_type ≠ some "already_cancelled" →
      (cancelBucket r t).failed_transient = t.failed_transient +
        (if inRetryStatus r.http_status = true then 1 else 0)) := by
  refine ⟨?_, ?_, ?_, ?_, ?_, ?_, ?_, ?_⟩
  · intro h
    simp only [classify_error]
    rw [h]
  · intro h1 h2
    simp [classify_error, h1, h2]
  · rintro (h1 | h1) h2 <;> simp [classify_error, h1, h2]
  · rintro (h1 | h1) h2 (h3 | h3) <;> simp [classify_error, h1, h2, h3]
  · rintro (h1 | h1) h2 h3 h4 <;> simp [classify_error, h1, h2, h3, h4]
  · have h := classify_error_mem m
    simp only [List.mem_cons, List.not_mem_nil, or_false] at h
    exact h
  · intro h1 h2 h3
    simp [cancelBucket, h1, h2, h3]
  · intro h1 h2 h3
    by_cases hr : inRetryStatus r.http_status = true
    · simp [cancelBucket, h1, h2, h3, hr]
    · simp [cancelBucket, h1, h2, h3, hr]

/-- C9: the scripts-directory `apply_config` applies a config value only
when the flag is still at its `DEFAULTS` value and never applies nulls;
the top-level copy contradicts its own "CLI flags win" docstring by
overwriting the explicitly-set `retries = 5` with the config value 7. -/
theorem c9_config_merge_bug :
    apply_config argsC9 cfgC9 = [("retries", Val.vi 5)] ∧
    apply_config_root argsC9 cfgC9 = [("retries", Val.vi 7)] ∧
    DEFAULTS.lookup "retries" = some (Val.vi 3) ∧
    (∀ (args : List (String × Val)) (key : String),
      apply_config args [(key, Val.vnull)] = args) ∧
    (∀ (args : List (String × Val)) (key : String),
      apply_config_root args [(key, Val.vnull)] = args) := by
  refine ⟨by decide, by decide, by decide, ?_, ?_⟩
  · intro args key
    simp [apply_config]
  · intro args key
    simp [apply_config_root]

/-! ### Reservoir sampling lemmas -/
theorem sampleAux_length {α : Type} (k : Nat) (rand : Nat → Nat) :
    ∀ (rest : List α) (i : Nat) (res : List α), res.length = min k (i - 1) → 1 ≤ i →
    (sampleAux k rand i res rest).length = min k (i - 1 + rest.length) := by
  intro rest
  induction rest with
  | nil => intro i res h h1; simpa [sampleAux] using h
  | cons row rest2 ih =>
    intro i res h h1
    simp only [sampleAux]
    by_cases hik : i ≤ k
    · rw [if_pos hik]
      have hres : (res ++ [row]).length = min k ((i + 1) - 1) := by
        simp only [List.length_append, List.length_singleton, h]
        omega
      rw [ih (i + 1) (res ++ [row]) hres (by omega)]
      simp only [List.length_cons]
      omega
    · rw [if_neg hik]
      by_cases hj : rand i ≤ k
      · rw [if_pos hj]
        have hres : (res.set (rand i - 1) row).length = min k ((i + 1) - 1) := by
          simp only [List.length_set, h]
          omega
        rw [ih (i + 1) _ hres (by omega)]
        simp only [List.length_cons]
        omega
      · rw [if_neg hj]
        have hres : res.length = min k ((i + 1) - 1) := by rw [h]; omega
        rw [ih (i + 1) res hres (by omega)]
        simp only [List.length_cons]
        omega

theorem sampleAux_fill {α : Type} (k : Nat) (rand : Nat → Nat) :
    ∀ (rest : List α) (i : Nat) (res : List α), i + rest.length ≤ k + 1 →
    sampleAux k rand i res rest = res ++ rest := by
  intro rest
  induction rest with
  | nil => intro i res _; simp [sampleAux]
  | cons row rest2 ih =>
    intro i res hb
    have hik : i ≤ k := by
      have := hb
      simp only [List.length_cons] at this
      omega
    simp only [sampleAux, if_pos hik]
    rw [ih (i + 1) (res ++ [row]) (by simp at hb ⊢; omega)]
    simp

theorem sampleAux_split {α : Type} (k : Nat) (rand : Nat → Nat) :
    ∀ (rest : List α) (i : Nat) (res : List α), 1 ≤ i → i ≤ k + 1 →
    sampleAux k rand i res rest =
      sampleAux k rand (k + 1) (res ++ rest.take (k + 1 - i)) (rest.drop (k + 1 - i)) := by
  intro rest
  induction rest with
  | nil => intro i res _ _; simp [sampleAux]
  | cons row rest2 ih =>
    intro i res h1 h2
    by_cases hik : i ≤ k
    · simp only [sampleAux, if_pos hik]
      rw [ih (i + 1) (res ++ [row]) (by omega) (by omega)]
      have ht : k + 1 - i = (k - i) + 1 := by omega
      have ht2 : k + 1 - (i + 1) = k - i := by omega
      rw [ht, ht2, List.take_succ_cons, List.drop_succ_cons]
      simp
    · have hieq : i = k + 1 := by omega
      subst hieq
      simp [Nat.sub_self]

theorem filter_range_le (k : Nat) :
    ∀ i, ((List.range' 1 i).filter (fun v => decide (v ≤ k))).length = min k i := by
  intro i
  induction i with
  | zero => simp
  | succ n ih =>
    rw [List.range'_1_concat, List.filter_append, List.length_append, ih]
    by_cases h : 1 + n ≤ k
    · simp only [List.filter_cons, List.filter_nil, decide_eq_true h, if_true]
      simp only [List.length_singleton]
      omega
    · simp only [List.filter_cons, List.filter_nil]
      rw [if_neg (by simpa using h)]
      simp only [List.length_nil]
      omega

theorem count_slot (k s : Nat) (hs : s < k) :
    ∀ i, s + 1 ≤ i →
    ((List.range' 1 i).filter (fun v => decide (v ≤ k) && decide (v - 1 = s))).length = 1 := by
  intro i
  induction i with
  | zero => intro h; omega
  | succ n ih =>
    intro h
    rw [List.range'_1_concat, List.filter_append, List.length_append]
    by_cases hsn : s + 1 ≤ n
    · rw [ih hsn]
      have hne : ((1 + n) - 1 = s) = False := by
        simp only [eq_iff_iff, iff_false]
        omega
      simp [hne]
      intro _
      omega
    · have hsn2 : s = n := by omega
      subst hsn2
      have hpre : ((List.range' 1 s).filter
          (fun v => decide (v ≤ k) && decide (v - 1 = s))).length = 0 := by
        rw [List.length_eq_zero]
        apply List.filter_eq_nil_iff.mpr
        intro v hv
        have hvlt : v < 1 + s := by
          rcases List.mem_range'.mp hv with ⟨j, hj, hvj⟩
          omega
        have hv1 : 1 ≤ v := by
          rcases List.mem_range'.mp hv with ⟨j, hj, hvj⟩
          omega
        simp only [Bool.and_eq_true, decide_eq_true_eq, not_and]
        intro _
        omega
      rw [hpre]
      have hy1 : ((1 + s) - 1 = s) = True := by
        simp only [eq_iff_iff, iff_true]
        omega
      have hy2 : (1 + s ≤ k) = True := by
        simp only [eq_iff_iff, iff_true]
        omega
      simp [hy1, hy2]

/-- C6: reservoir sampling returns exactly `min k n` rows; the first
`min k n` rows are kept unconditionally (in particular a file of at most
k rows is returned whole, and the pass decomposes into an unconditional
fill of the first k rows followed by the replacement phase); each later
row `i > k` replaces slot `rand i - 1` exactly when the draw
`rand i ∈ [1, i]` satisfies `rand i ≤ k` — `k` of the `i` possible draws
cause a replacement and each of the `k` slots is chosen by exactly one
draw value. -/
theorem c6_reservoir_sampling (k : Nat) (rand : Nat → Nat) (rows : List Row) :
    (sample_rows k rand rows).length = min k rows.length ∧
    (rows.length ≤ k → sample_rows k rand rows = rows) ∧
    (1 ≤ k → sample_rows k rand rows =
      sampleAux k rand (k + 1) (rows.take k) (rows.drop k)) ∧
    (∀ (i : Nat) (res : List Row) (row : Row) (rest : List Row), k < i →
      sampleAux k rand i res (row :: rest) =
        sampleAux k rand (i + 1)
          (if rand i ≤ k then res.set (rand i - 1) row else res) rest) ∧
    (∀ i, k ≤ i → ((List.range' 1 i).filter (fun v => decide (v ≤ k))).length = k) ∧
    (∀ i s, s < k → k ≤ i →
      ((List.range' 1 i).filter
        (fun v => decide (v ≤ k) && decide (v - 1 = s))).length = 1) := by
  refine ⟨?_, ?_, ?_, ?_, ?_, ?_⟩
  · by_cases hk : k = 0
    · subst hk; simp [sample_rows]
    · rw [sample_rows, if_neg hk]
      have := sampleAux_length k rand rows 1 [] (by simp) (le_refl 1)
      simpa using this
  · intro hlen
    by_cases hk : k = 0
    · subst hk
      have : rows = [] := by
        cases rows with
        | nil => rfl
        | cons a l => simp at hlen
      subst this
      simp [sample_rows]
    · rw [sample_rows, if_neg hk]
      have := sampleAux_fill k rand rows 1 [] (by omega)
      simpa using this
  · intro hk
    rw [sample_rows, if_neg (by omega)]
    have := sampleAux_split k rand rows 1 [] (le_refl 1) (by omega)
    simpa using this
  · intro i res row rest hki
    simp only [sampleAux, if_neg (by omega : ¬i ≤ k)]
    by_cases hj : rand i ≤ k
    · rw [if_pos hj, if_pos hj]
    · rw [if_neg hj, if_neg hj]
  · intro i hik
    rw [filter_range_le]
    omega
  · intro i s hsk hik
    exact count_slot k s hsk i (by omega)

/-- Witness for C1 at a concrete run configuration. -/
theorem c1_witness :
    runBatch argsLiveW oracleW jitW (some ["a"]) (some ["x"]) [rowW] =
      runBatch argsLiveW oracleW jitW (some ["a"]) none [rowW] :=
  (c1_checkpoint_idempotence argsLiveW oracleW oracleW jitW jitW (some ["a"]) none none
    [rowW] rfl rfl).2.2.1 (some ["x"]) none

/-- Witness for C2: with an always-503 endpoint and two retries, three
calls are made and the attempts field reports three. -/
theorem c2_witness :
    (cancel_with_retries behavT 2 1 1 jit0).result.attempts = 2 + 1 ∧
    (cancel_with_retries behavT 2 1 1 jit0).calls = 2 + 1 :=
  (c2_retry_executor 2 1 1 behavT jit0).2.2.2.1 (fun _ => rfl)

/-- Witness for the amended C3 at concrete messages. -/
theorem c3_witness :
    classify_error "Already CANCELLED" = "already_cancelled" ∧
    classify_error "Not Found" = "not_found" := by
  constructor
  · exact (c3_classifier_amended "Already CANCELLED" ""
      ⟨"", 0, none, none, none⟩ emptyTotals).2.1 rfl rfl
  · exact (c3_classifier_amended "Not Found" ""
      ⟨"", 0, none, none, none⟩ emptyTotals).2.2.1 (Or.inl rfl) rfl

/-- Witness for C4: a first-call exception yields the exception failure
with one call. -/
theorem c4_witness :
    (cancel_with_retries behavE 0 1 1 jit0).result =
      ⟨"failure", 1, none, some "boom", some "exception"⟩ ∧
    (cancel_with_retries behavE 0 1 1 jit0).calls = 1 := by
  obtain ⟨w1, w2, -, -, -, -⟩ :=
    c4_local_exception behavE 0 1 1 jit0 1 "boom" (le_refl 1) (by omega)
      (fun n h1 h2 => absurd h2 (by omega)) rfl
  exact ⟨w1, w2⟩

/-- Witness for C5 at a concrete dry run. -/
theorem c5_witness :
    (runBatch argsDryW oracleW jitW none none [rowW]).remoteTokens = [] ∧
    (runBatch argsDryW oracleW jitW none none [rowW]).ckptSuccess = [] := by
  obtain ⟨w1, w2, -, -, -, -⟩ := c5_dry_run_frame argsDryW oracleW jitW none none [rowW] rfl
  exact ⟨w1, w2⟩

/-- Witness for C6 at a concrete sample of size two over three rows. -/
theorem c6_witness :
    (sample_rows 2 randW rowsW3).length = min 2 rowsW3.length ∧
    sample_rows 2 randW rowsW3 =
      sampleAux 2 randW 3 (rowsW3.take 2) (rowsW3.drop 2) :=
  ⟨(c6_reservoir_sampling 2 randW rowsW3).1,
   (c6_reservoir_sampling 2 randW rowsW3).2.2.1 (by omega)⟩

/-- Witness for C8 at concrete active and expired payloads. -/
theorem c8_witness :
    (validateBranch "t" "p" none none 1 gActive (initState [])).eligibleRows =
      (initState []).eligibleRows ++
        [⟨"t", "p", none, none, some "SUBSCRIPTION_STATE_ACTIVE", none, none, none⟩] ∧
    (validateBranch "t" "p" none none 1 gExpired (initState [])).ineligibleRows =
      (initState []).ineligibleRows ++
        [⟨"t", "p", none, none, some "SUBSCRIPTION_STATE_EXPIRED", none, none, none,
          "success", some 200, none, none⟩] := by
  constructor
  · exact ((c8_validate_eligibility "t" "p" none none 1 gActive (initState [])).2.2.2.1
      rfl).1
  · exact ((c8_validate_eligibility "t" "p" none none 1 gExpired (initState [])).2.2.2.2
      rfl).2

end FightPass
